import Mathlib

/-!
# libp11 `examples/decrypt.c`: challenge/response against a PKCS #11 token

A shallow embedding of `main` from `src/examples/decrypt.c`.

Every library or system call whose result `main` inspects is a collaborator.
Each of them is called at most once per run (apart from `tcsetattr`, whose two
calls have a result each), so one run is determined by one value per
collaborator: the record `Env`.  `main` is a total function from `Env` to the
exit code, the ordered trace of calls and printed lines, the final contents of
`password[20]` and the final echo flag of the terminal.

A statement `f(); rest` is written `emit (event of f) rest`: the trace of a
run is the event of its first call followed by the trace of what comes after.
The two pieces of data that later statements read back, `password` and the
terminal, are passed along as a `State`.

Bytes are natural numbers; C strings are lists of bytes read up to the first
zero byte.
-/

namespace Libp11

/-! ## Constants and collaborator results -/

/-- Constant `RANDOM_SIZE` of the source (64). -/
def RANDOM_SIZE : Nat := 64

/-- Constant `MAX_SIGSIZE` of the source (256), not used by `main`. -/
def MAX_SIGSIZE : Nat := 256

/-- The fields of `PKCS11_TOKEN` that `main` branches on or passes on.  The
struct is declared in `libp11.h`; `loginRequired` is an integer flag tested
with `!`. -/
structure Token where
  label : List Nat
  loginRequired : Nat
deriving DecidableEq, Repr

/-- The part of `PKCS11_SLOT` read by `main`: `slot->token` may be `NULL`. -/
structure Slot where
  token : Option Token
deriving DecidableEq, Repr

/-- The three heap buffers and the key object of `main`. -/
inductive Res where
  /-- Variable `random`, the challenge buffer -/
  | random
  /-- Variable `encrypted`, the ciphertext buffer -/
  | encrypted
  /-- Variable `decrypted`, the plaintext buffer -/
  | decrypted
  /-- Variable `pubkey`, the `EVP_PKEY` object -/
  | pubkey
deriving DecidableEq, Repr

/-- The lines `main` prints, one constructor per `printf`/`fprintf` call. -/
inductive Msg where
  /-- The line `usage: auth /usr/lib/opensc-pkcs11.so` (stderr) -/
  | usage
  /-- The line `loading pkcs11 engine failed: %s` (stderr) -/
  | loadFailed
  /-- The line `no slots available` (stderr) -/
  | noSlots
  /-- The line `no token available` (stderr) -/
  | noToken
  /-- The line `Slot manufacturer......: %s` -/
  | slotManufacturer
  /-- The line `Slot description.......: %s` -/
  | slotDescription
  /-- The line `Slot token label.......: %s` -/
  | tokenLabel
  /-- The line `Slot token manufacturer: %s` -/
  | tokenManufacturer
  /-- The line `Slot token model.......: %s` -/
  | tokenModel
  /-- The line `Slot token serialnr....: %s` -/
  | tokenSerialnr
  /-- The line `PKCS11_enumerate_certs failed` (stderr) -/
  | enumerateCertsFailed
  /-- The line `no certificates found` (stderr) -/
  | noCertificates
  /-- The line `fatal: cannot open RANDOM_SOURCE: %s` (stderr) -/
  | cannotOpenRandom
  /-- The line `fatal: read from random source failed: %s` (stderr) -/
  | readFailed
  /-- The line `fatal: read returned less than %d<%d bytes` (stderr) -/
  | shortRead
  /-- The line `could not extract public key` (stderr) -/
  | noPublicKey
  /-- The line `out of memory for encrypted data` (stderr) -/
  | outOfMemory
  /-- The line `fatal: RSA_public_encrypt failed` (stderr) -/
  | encryptFailed
  /-- The line `Password for token %.32s: ` -/
  | passwordPrompt
  /-- The line `PKCS11_login failed` (stderr) -/
  | loginFailed
  /-- The line `no key matching certificate available` (stderr) -/
  | noKey
  /-- The line `fatal: PKCS11_private_decrypt failed` (stderr) -/
  | decryptFailed
  /-- The line `fatal: decrypted data does not match original` (stderr) -/
  | mismatch
  /-- The line `decryption successfull.` -/
  | success
  /-- The line `decryption failed.` -/
  | failure
deriving DecidableEq, Repr

/-- What a run does that is visible outside `main`, in program order.  A call
carries the arguments and the result that matter to the control flow. -/
inductive Event where
  | stderr (m : Msg)
  | stdout (m : Msg)
  | ctxNew
  | ctxLoad (rc : Int)
  | enumerateSlots (rc : Int)
  | findToken (slot : Option Slot)
  | enumerateCerts (rc : Int) (ncerts : Nat)
  | malloc (r : Res) (ok : Bool)
  | openRandom (fd : Int)
  | read (rc : Int)
  | close
  | getPubkey (ok : Bool)
  | publicEncrypt (flen : Nat) (src : List Nat) (len : Int)
  | tcgetattr (rc : Int)
  | tcsetattr (echo : Bool) (rc : Int)
  | fgets (ok : Bool)
  | login (pin : List Nat) (rc : Int)
  | memset (n : Nat)
  | findKey (ok : Bool)
  | privateDecrypt (flen : Int) (rc : Int)
  | memcmp (rc : Int)
  | releaseAllSlots
  | ctxUnload
  | ctxFree
  | free (r : Res)
  | cryptoCleanupAllExData
  | errFreeStrings
  | errRemoveThreadState
  | errRemoveState
  | errPrintErrors
deriving DecidableEq, Repr

/-- One value per collaborator: everything outside `main` that a run depends
on. -/
structure Env where
  /-- The value of `argc` -/
  argc : Int
  /-- The constant `OPENSSL_VERSION_NUMBER`, selecting the conditional cleanup call -/
  opensslVersion : Nat
  /-- result of `PKCS11_CTX_load` -/
  ctxLoad : Int
  /-- result of `PKCS11_enumerate_slots` -/
  enumerateSlots : Int
  /-- result of `PKCS11_find_token` (`none` is `NULL`) -/
  findToken : Option Slot
  /-- result of `PKCS11_enumerate_certs` -/
  enumerateCerts : Int
  /-- The value of `ncerts` as left by `PKCS11_enumerate_certs` -/
  ncerts : Nat
  /-- Whether `OPENSSL_malloc(RANDOM_SIZE)` returned non-`NULL` -/
  mallocRandom : Bool
  /-- result of `open(RANDOM_SOURCE, O_RDONLY)` -/
  openFd : Int
  /-- result of `read(fd, random, RANDOM_SIZE)` -/
  readRc : Int
  /-- contents of `random` after the read -/
  randomBuf : List Nat
  /-- Whether `X509_get_pubkey` returned non-`NULL` -/
  getPubkey : Bool
  /-- Whether `OPENSSL_malloc` for `encrypted` returned non-`NULL` -/
  mallocEncrypted : Bool
  /-- result of `RSA_public_encrypt` -/
  publicEncrypt : Int
  /-- result of `tcgetattr(0, &old)` -/
  tcgetattr : Int
  /-- the `ECHO` bit of the terminal when `main` starts (and so of `old`) -/
  echo : Bool
  /-- result of `tcsetattr(0, TCSAFLUSH, &new)` -/
  tcsetattrNew : Int
  /-- result of `tcsetattr(0, TCSAFLUSH, &old)` -/
  tcsetattrOld : Int
  /-- the bytes `fgets` finds on standard input, up to end of file -/
  stdin : List Nat
  /-- the 20 bytes found in `password` before anything is stored there -/
  passwordInit : List Nat
  /-- result of `PKCS11_login`, given the pin -/
  login : List Nat → Int
  /-- Whether `PKCS11_find_key` returned non-`NULL` -/
  findKey : Bool
  /-- Whether `OPENSSL_malloc` for `decrypted` returned non-`NULL` -/
  mallocDecrypted : Bool
  /-- result of `PKCS11_private_decrypt` -/
  privateDecrypt : Int
  /-- contents of `decrypted` after `PKCS11_private_decrypt` -/
  decryptedBuf : List Nat

/-! ## C library functions used on buffers -/

/-- Function `strlen`: the number of bytes before the first zero byte. -/
def strlen (s : List Nat) : Nat :=
  (s.takeWhile (fun c => c != 0)).length

/-- The C string stored in a buffer: the bytes before the first zero byte. -/
def cstr (s : List Nat) : List Nat :=
  s.takeWhile (fun c => c != 0)

/-- Function `memset(s, c, n)` on a buffer. -/
def memset (s : List Nat) (c : Nat) (n : Nat) : List Nat :=
  List.replicate (min n s.length) c ++ s.drop n

/-- Function `memcmp(s1, s2, n)`: zero when the first `n` bytes agree, otherwise the
difference of the first pair of bytes that differ.  A byte beyond the end of
a list reads as zero. -/
def memcmp (s1 s2 : List Nat) : Nat → Int
  | 0 => 0
  | n + 1 =>
    if s1.headD 0 = s2.headD 0 then memcmp s1.tail s2.tail n
    else (s1.headD 0 : Int) - (s2.headD 0 : Int)

/-- The characters `fgets` consumes when it may store `n` of them: it stops
after a newline (byte 10), at end of file, or when `n` characters are read. -/
def fgetsChars : Nat → List Nat → List Nat
  | 0, _ => []
  | _ + 1, [] => []
  | n + 1, c :: cs => if c = 10 then [c] else c :: fgetsChars n cs

/-- Function `fgets(s, size, stream)`: `none` is `NULL` (end of file before any
character); otherwise the buffer holds the characters read and a terminating
zero byte, the bytes behind are left as they were. -/
def fgets (s : List Nat) (size : Nat) (stream : List Nat) : Option (List Nat) :=
  let cs := fgetsChars (size - 1) stream
  if cs = [] then none
  else some (cs ++ [0] ++ s.drop (cs.length + 1))

/-! ## Program state and the exit labels -/

/-- The data a run carries from statement to statement: `password[20]` and the
echo flag of the terminal. -/
structure State where
  password : List Nat
  echo : Bool
deriving DecidableEq, Repr

/-- What `main` leaves behind: the value it returns, the trace of the run and
the final state. -/
structure Result where
  exit : Int
  trace : List Event
  password : List Nat
  echo : Bool
deriving DecidableEq, Repr

/-- Do the call or print `ev`, then continue as `k`. -/
def emit (ev : Event) (k : Result) : Result :=
  { k with trace := ev :: k.trace }

/-- Statement `return code;` -/
def State.ret (s : State) (code : Int) : Result :=
  { exit := code, trace := [], password := s.password, echo := s.echo }

/-- Label `nolib:` down to `return 1`. -/
def nolib (s : State) : Result :=
  emit .ctxFree <| emit (.stdout .failure) <| s.ret 1

/-- Label `noslots:`, falling through to `nolib:`. -/
def noslots (s : State) : Result :=
  emit .ctxUnload <| nolib s

/-- Label `notoken:`, falling through to `noslots:`. -/
def notoken (s : State) : Result :=
  emit .releaseAllSlots <| noslots s

/-- Label `failed:`, falling through to `notoken:`. -/
def failed (s : State) : Result :=
  emit .errPrintErrors <| notoken s

/-- The version-dependent call after `ERR_free_strings()` (lines 234 to
246). -/
def errRemove (version : Nat) (k : Result) : Result :=
  if version ≥ 0x10100006 then k
  else if version ≥ 0x10100004 then emit .errRemoveThreadState k
  else if version ≥ 0x10000000 then emit .errRemoveThreadState k
  else emit .errRemoveState k

/-! ## `main`, in the order of the source -/

/-- Lines 219 to 249: the success exit.  All four resources are non-`NULL`
here, so each `if (x != NULL)` guard is taken. -/
def succeed (e : Env) (s : State) : Result :=
  emit .releaseAllSlots <| emit .ctxUnload <| emit .ctxFree <|
  emit (.free .pubkey) <| emit (.free .random) <|
  emit (.free .encrypted) <| emit (.free .decrypted) <|
  emit .cryptoCleanupAllExData <| emit .errFreeStrings <|
  errRemove e.opensslVersion <|
  emit (.stdout .success) <| s.ret 0

/-- Label `loggedin:` to the comparison (lines 189 to 217). -/
def loggedin (e : Env) (s : State) : Result :=
  emit (.findKey e.findKey) <|
  if e.findKey = false then emit (.stderr .noKey) <| failed s else
  emit (.malloc .decrypted e.mallocDecrypted) <|
  if e.mallocDecrypted = false then failed s else
  let rc := e.privateDecrypt
  emit (.privateDecrypt e.publicEncrypt rc) <|
  if rc ≠ (RANDOM_SIZE : Int) then emit (.stderr .decryptFailed) <| failed s else
  let cmp := memcmp e.randomBuf e.decryptedBuf RANDOM_SIZE
  emit (.memcmp cmp) <|
  if cmp ≠ 0 then emit (.stderr .mismatch) <| failed s else
  succeed e s

/-- Lines 175 to 187, once `fgets` has filled `password`: strip the last
character, log in, wipe. -/
def doLogin (e : Env) (s : State) : Result :=
  let rc : Int := strlen s.password
  if rc ≤ 0 then failed s else
  let s := { s with password := s.password.set (rc - 1).toNat 0 }
  let rc := e.login (cstr s.password)
  emit (.login (cstr s.password) rc) <|
  let n := strlen s.password
  emit (.memset n) <|
  let s := { s with password := memset s.password 0 n }
  if rc ≠ 0 then emit (.stderr .loginFailed) <| failed s else
  loggedin e s

/-- The password prompt (lines 158 to 173), followed by `doLogin`. -/
def prompt (e : Env) (s : State) : Result :=
  emit (.tcgetattr e.tcgetattr) <|
  if e.tcgetattr ≠ 0 then failed s else
  emit (.tcsetattr false e.tcsetattrNew) <|
  if e.tcsetattrNew ≠ 0 then failed s else
  let s := { s with echo := false }
  emit (.stdout .passwordPrompt) <|
  match fgets s.password 20 e.stdin with
  | none => emit (.fgets false) <| failed s
  | some buf =>
    emit (.fgets true) <|
    let s := { s with password := buf }
    emit (.tcsetattr e.echo e.tcsetattrOld) <|
    let s := if e.tcsetattrOld = 0 then { s with echo := e.echo } else s
    doLogin e s

/-- From the random bytes to the encryption of the challenge (lines 94 to
156). -/
def challenge (e : Env) (tok : Token) (s : State) : Result :=
  emit (.malloc .random e.mallocRandom) <|
  if e.mallocRandom = false then failed s else
  emit (.openRandom e.openFd) <|
  if e.openFd < 0 then emit (.stderr .cannotOpenRandom) <| failed s else
  let rc := e.readRc
  emit (.read rc) <|
  if rc < 0 then emit (.stderr .readFailed) <| emit .close <| failed s else
  if rc < (RANDOM_SIZE : Int) then emit (.stderr .shortRead) <| emit .close <| failed s else
  emit .close <|
  emit (.getPubkey e.getPubkey) <|
  if e.getPubkey = false then emit (.stderr .noPublicKey) <| failed s else
  emit (.malloc .encrypted e.mallocEncrypted) <|
  if e.mallocEncrypted = false then emit (.stderr .outOfMemory) <| failed s else
  let len := e.publicEncrypt
  emit (.publicEncrypt RANDOM_SIZE e.randomBuf len) <|
  if len < 0 then emit (.stderr .encryptFailed) <| failed s else
  if tok.loginRequired = 0 then loggedin e s else
  prompt e s

/-- After a token was found: the six lines about the slot and the
enumeration of the certificates (lines 73 to 92). -/
def withToken (e : Env) (tok : Token) (s : State) : Result :=
  emit (.stdout .slotManufacturer) <| emit (.stdout .slotDescription) <|
  emit (.stdout .tokenLabel) <| emit (.stdout .tokenManufacturer) <|
  emit (.stdout .tokenModel) <| emit (.stdout .tokenSerialnr) <|
  let rc := e.enumerateCerts
  emit (.enumerateCerts rc e.ncerts) <|
  if rc ≠ 0 then emit (.stderr .enumerateCertsFailed) <| failed s else
  if e.ncerts ≤ 0 then emit (.stderr .noCertificates) <| failed s else
  challenge e tok s

/-- The function `main` of `decrypt.c`. -/
def main (e : Env) : Result :=
  let s : State := { password := e.passwordInit, echo := e.echo }
  if e.argc ≠ 2 then emit (.stderr .usage) <| s.ret 1 else
  emit .ctxNew <|
  let rc := e.ctxLoad
  emit (.ctxLoad rc) <|
  if rc ≠ 0 then emit (.stderr .loadFailed) <| nolib s else
  let rc := e.enumerateSlots
  emit (.enumerateSlots rc) <|
  if rc < 0 then emit (.stderr .noSlots) <| noslots s else
  emit (.findToken e.findToken) <|
  match e.findToken with
  | none => emit (.stderr .noToken) <| notoken s
  | some slot =>
    match slot.token with
    | none => emit (.stderr .noToken) <| notoken s
    | some tok => withToken e tok s

/-! ## Success, failure and the checked steps -/

/-- The run reports success: exit code 0 and the success line, no failure
line. -/
def reportsSuccess (r : Result) : Prop :=
  r.exit = 0 ∧ Event.stdout Msg.success ∈ r.trace ∧ Event.stdout Msg.failure ∉ r.trace

/-- The run reports failure: exit code 1 and the failure line, no success
line. -/
def reportsFailure (r : Result) : Prop :=
  r.exit = 1 ∧ Event.stdout Msg.failure ∈ r.trace ∧ Event.stdout Msg.success ∉ r.trace

/-- A run reports success when `c` holds and failure when it does not. -/
def Decides (r : Result) (c : Prop) : Prop :=
  (reportsSuccess r ∧ c) ∨ (reportsFailure r ∧ ¬c)

/-- The pin handed to `PKCS11_login` when `fgets` left `buf` in `password`:
the C string in `buf` after `password[strlen(password)-1] = 0`. -/
def pinOf (buf : List Nat) : List Nat :=
  cstr (buf.set (strlen buf - 1) 0)

/-- Every checked step of the password prompt succeeds: both terminal calls,
`fgets`, the length test and `PKCS11_login`. -/
def loginSucceeds (e : Env) : Prop :=
  e.tcgetattr = 0 ∧ e.tcsetattrNew = 0 ∧
    ∃ buf, fgets e.passwordInit 20 e.stdin = some buf ∧ 0 < strlen buf ∧
      e.login (pinOf buf) = 0

/-- Every step before the private decrypt whose result `main` checks
succeeds; the login steps count only when the token requires login. -/
def stepsSucceed (e : Env) : Prop :=
  e.ctxLoad = 0 ∧ 0 ≤ e.enumerateSlots ∧
  (∃ slot tok, e.findToken = some slot ∧ slot.token = some tok ∧
    (tok.loginRequired ≠ 0 → loginSucceeds e)) ∧
  e.enumerateCerts = 0 ∧ 0 < e.ncerts ∧
  e.mallocRandom = true ∧ 0 ≤ e.openFd ∧ (RANDOM_SIZE : Int) ≤ e.readRc ∧
  e.getPubkey = true ∧ e.mallocEncrypted = true ∧ 0 ≤ e.publicEncrypt ∧
  e.findKey = true ∧ e.mallocDecrypted = true

/-- The checked steps from `loggedin:` on succeed: the key is found, the
buffer is allocated, the decrypt returns `RANDOM_SIZE` bytes and `memcmp`
finds them equal to the challenge. -/
def decryptOk (e : Env) : Prop :=
  e.findKey = true ∧ e.mallocDecrypted = true ∧ e.privateDecrypt = 64 ∧
    memcmp e.randomBuf e.decryptedBuf 64 = 0

/-! ## Classes of events and properties of traces -/

/-- The events of the password prompt: the terminal calls, the prompt line,
the read of the operator input, the login and the wipe of the password. -/
def promptEvent : Event → Bool
  | .tcgetattr _ => true
  | .tcsetattr _ _ => true
  | .stdout .passwordPrompt => true
  | .fgets _ => true
  | .login _ _ => true
  | .memset _ => true
  | _ => false

/-- The events that produce the challenge: the allocation of `random`, the
`open` and `read` of the random source and `RSA_public_encrypt`. -/
def challengeEvent : Event → Bool
  | .malloc .random _ => true
  | .openRandom _ => true
  | .read _ => true
  | .publicEncrypt _ _ _ => true
  | _ => false

/-- The events that come after the challenge is read: the encryption,
everything of the password prompt, the private decrypt and the comparison. -/
def usesChallenge : Event → Bool
  | .publicEncrypt _ _ _ => true
  | .privateDecrypt _ _ => true
  | .memcmp _ => true
  | ev => promptEvent ev

/-- The events of the password prompt and of everything from `loggedin:` to
the success exit. -/
def lateEvent : Event → Bool
  | .findKey _ => true
  | .malloc .decrypted _ => true
  | .privateDecrypt _ _ => true
  | .memcmp _ => true
  | .free _ => true
  | .cryptoCleanupAllExData => true
  | .errFreeStrings => true
  | .errRemoveThreadState => true
  | .errRemoveState => true
  | .stdout .success => true
  | ev => promptEvent ev

/-- The event is a `read` of the random source. -/
def isRead : Event → Bool
  | .read _ => true
  | _ => false

/-- No event of the run is in the class `bad`. -/
def NoEvent (bad : Event → Bool) (r : Result) : Prop :=
  ∀ ev ∈ r.trace, bad ev = false

/-- After a failed login nothing of the decrypt happens: no `PKCS11_find_key`,
no `PKCS11_private_decrypt`, no success line, exit code 1. -/
def LoginFailureStops (r : Result) : Prop :=
  ∀ pin rc, Event.login pin rc ∈ r.trace → rc ≠ 0 →
    (∀ ok, Event.findKey ok ∉ r.trace) ∧
    (∀ flen x, Event.privateDecrypt flen x ∉ r.trace) ∧
    Event.stdout Msg.success ∉ r.trace ∧ r.exit = 1

/-- What must come right after an event when no login is needed: after a
successful `RSA_public_encrypt` the next event is `PKCS11_find_key`, after a
key was found it is the allocation of `decrypted`, and after that allocation
succeeded it is `PKCS11_private_decrypt`.  Other events are free. -/
def directOrder : Event → Option Event → Bool
  | .publicEncrypt _ _ len, next =>
    decide (len < 0) || (match next with | some (.findKey _) => true | _ => false)
  | .findKey true, next => (match next with | some (.malloc .decrypted _) => true | _ => false)
  | .malloc .decrypted true, next =>
    (match next with | some (.privateDecrypt _ _) => true | _ => false)
  | _, _ => true

/-- Every event of the trace stands in `R` with its successor (`none` at the
end of the trace). -/
def eachFollowedBy (R : Event → Option Event → Bool) : List Event → Bool
  | [] => true
  | a :: rest => R a rest.head? && eachFollowedBy R rest

/-- Every pin handed to `PKCS11_login` in the run satisfies `Q`. -/
def LoginArg (Q : List Nat → Prop) (r : Result) : Prop :=
  ∀ pin rc, Event.login pin rc ∈ r.trace → Q pin

/-- The contents of `password` after the login of a run that left `buf`
there: the last character cut, then `memset` over the C string that
remains. -/
def wiped (buf : List Nat) : List Nat :=
  memset (buf.set (strlen buf - 1) 0) 0 (strlen (buf.set (strlen buf - 1) 0))

/-- In every run that calls `PKCS11_login`, `password` ends as `f` of the
buffer `fgets` filled. -/
def PasswordAfterLogin (f : List Nat → List Nat) (pw : List Nat) (e : Env) (r : Result) :
    Prop :=
  (∃ pin rc, Event.login pin rc ∈ r.trace) →
    ∃ buf, fgets pw 20 e.stdin = some buf ∧ r.password = f buf

/-! ## Runs used as examples -/

/-- The end-to-end scenario: one slot with a token that requires login, one
certificate, the PIN `1234` typed and accepted, a token that decrypts the
challenge correctly. -/
def scenario : Env where
  argc := 2
  opensslVersion := 0x10100006
  ctxLoad := 0
  enumerateSlots := 0
  findToken := some { token := some { label := [84, 111, 107], loginRequired := 1 } }
  enumerateCerts := 0
  ncerts := 1
  mallocRandom := true
  openFd := 3
  readRc := 64
  randomBuf := List.range 64
  getPubkey := true
  mallocEncrypted := true
  publicEncrypt := 128
  tcgetattr := 0
  echo := true
  tcsetattrNew := 0
  tcsetattrOld := 0
  stdin := [49, 50, 51, 52, 10]
  passwordInit := List.replicate 20 170
  login := fun pin => if pin = [49, 50, 51, 52] then 0 else -1
  findKey := true
  mallocDecrypted := true
  privateDecrypt := 64
  decryptedBuf := List.range 64 ++ List.replicate 64 0

/-- The scenario with a token whose answer differs from the challenge in
exactly one byte (byte 5). -/
def oneByteOff : Env :=
  { scenario with decryptedBuf := (List.range 64).set 5 200 }

/-- A run without the module path on the command line. -/
def missingArgument : Env :=
  { scenario with argc := 1 }

/-- A run in which `PKCS11_CTX_load` fails. -/
def loadFailure : Env :=
  { scenario with ctxLoad := -1 }

/-- A run in which `open` of the random source fails after the challenge
buffer was allocated. -/
def openFails : Env :=
  { scenario with openFd := -1 }

/-- A run in which standard input is at end of file when the password is
read. -/
def eofAtPrompt : Env :=
  { scenario with stdin := [] }

/-- A run in which the operator types `ab`, a zero byte, `cd` and newline,
on a token whose PIN is `a`. -/
def nulInPassword : Env :=
  { scenario with
    stdin := [97, 98, 0, 99, 100, 10]
    login := fun pin => if pin = [97] then 0 else -1 }

/-- The scenario with the PIN `123` typed, which the token rejects. -/
def wrongPin : Env :=
  { scenario with stdin := [49, 50, 51, 10] }

/-- The scenario with a token that does not require login. -/
def noLogin : Env :=
  { scenario with
    findToken := some { token := some { label := [84, 111, 107], loginRequired := 0 } } }

/-- The scenario with a token that holds no certificate. -/
def noCertificates : Env :=
  { scenario with ncerts := 0 }

/-- The scenario with a random source that delivers 10 bytes. -/
def shortRead : Env :=
  { scenario with readRc := 10 }

/-- The scenario with a random source whose `read` fails. -/
def readError : Env :=
  { scenario with readRc := -1 }

/-- The scenario with a PIN of 19 characters, typed with its newline. -/
def longPin : Env :=
  { scenario with stdin := List.replicate 19 65 ++ [10] }

/-- The scenario with the PIN `1234` ended by end of file, without newline. -/
def noNewline : Env :=
  { scenario with stdin := [49, 50, 51, 52] }

/-! ## Basic facts about the exit labels -/

@[simp]
theorem emit_exit (ev : Event) (k : Result) : (emit ev k).exit = k.exit := rfl

@[simp]
theorem emit_trace (ev : Event) (k : Result) :
    (emit ev k).trace = ev :: k.trace := rfl

@[simp]
theorem emit_password (ev : Event) (k : Result) :
    (emit ev k).password = k.password := rfl

@[simp]
theorem emit_echo (ev : Event) (k : Result) : (emit ev k).echo = k.echo := rfl

@[simp]
theorem ret_exit (s : State) (code : Int) : (s.ret code).exit = code := rfl

@[simp]
theorem ret_trace (s : State) (code : Int) : (s.ret code).trace = [] := rfl

@[simp]
theorem ret_password (s : State) (code : Int) :
    (s.ret code).password = s.password := rfl

@[simp]
theorem ret_echo (s : State) (code : Int) : (s.ret code).echo = s.echo := rfl

@[simp]
theorem failed_exit (s : State) : (failed s).exit = 1 := rfl

@[simp]
theorem failed_trace (s : State) :
    (failed s).trace =
      [.errPrintErrors, .releaseAllSlots, .ctxUnload, .ctxFree, .stdout .failure] := rfl

@[simp]
theorem failed_password (s : State) : (failed s).password = s.password := rfl

@[simp]
theorem failed_echo (s : State) : (failed s).echo = s.echo := rfl

@[simp]
theorem notoken_exit (s : State) : (notoken s).exit = 1 := rfl

@[simp]
theorem notoken_trace (s : State) :
    (notoken s).trace = [.releaseAllSlots, .ctxUnload, .ctxFree, .stdout .failure] := rfl

@[simp]
theorem noslots_exit (s : State) : (noslots s).exit = 1 := rfl

@[simp]
theorem noslots_trace (s : State) :
    (noslots s).trace = [.ctxUnload, .ctxFree, .stdout .failure] := rfl

@[simp]
theorem nolib_exit (s : State) : (nolib s).exit = 1 := rfl

@[simp]
theorem nolib_trace (s : State) :
    (nolib s).trace = [.ctxFree, .stdout .failure] := rfl

@[simp]
theorem succeed_exit (e : Env) (s : State) : (succeed e s).exit = 0 := by
  simp only [succeed, errRemove, emit_exit]
  split_ifs <;> rfl

/-- The events of the success exit: the fixed part, the version-dependent
call, the success line. -/
theorem succeed_trace (e : Env) (s : State) :
    ∃ mid, (succeed e s).trace =
        [.releaseAllSlots, .ctxUnload, .ctxFree, .free .pubkey, .free .random,
          .free .encrypted, .free .decrypted, .cryptoCleanupAllExData, .errFreeStrings]
          ++ mid ++ [.stdout .success] ∧
      ∀ ev ∈ mid, ev = .errRemoveThreadState ∨ ev = .errRemoveState := by
  simp only [succeed, errRemove, emit_trace]
  split_ifs
  · exact ⟨[], rfl, by simp⟩
  · exact ⟨[.errRemoveThreadState], rfl, by simp⟩
  · exact ⟨[.errRemoveThreadState], rfl, by simp⟩
  · exact ⟨[.errRemoveState], rfl, by simp⟩

/-- Which events the success exit contains. -/
theorem mem_succeed_trace (e : Env) (s : State) (ev : Event) :
    ev ∈ (succeed e s).trace →
      ev = .releaseAllSlots ∨ ev = .ctxUnload ∨ ev = .ctxFree ∨ (∃ r, ev = .free r) ∨
      ev = .cryptoCleanupAllExData ∨ ev = .errFreeStrings ∨ ev = .errRemoveThreadState ∨
      ev = .errRemoveState ∨ ev = .stdout .success := by
  obtain ⟨mid, h, hmid⟩ := succeed_trace e s
  intro hev
  rw [h] at hev
  simp only [List.mem_append, List.mem_cons, List.mem_singleton, List.not_mem_nil,
    or_false] at hev
  rcases hev with (hev | hev) | hev
  · rcases hev with rfl | rfl | rfl | rfl | rfl | rfl | rfl | rfl | rfl <;> simp
  · rcases hmid ev hev with rfl | rfl <;> simp
  · simp [hev]

theorem success_mem_succeed (e : Env) (s : State) :
    Event.stdout Msg.success ∈ (succeed e s).trace := by
  obtain ⟨mid, h, _⟩ := succeed_trace e s
  simp [h]

/-! ## `memcmp` and `fgets` -/

theorem memcmp_eq_zero_iff (n : Nat) : ∀ s1 s2 : List Nat,
    memcmp s1 s2 n = 0 ↔ ∀ i, i < n → s1.getD i 0 = s2.getD i 0 := by
  induction n with
  | zero => intro s1 s2; simp [memcmp]
  | succ n ih =>
    intro s1 s2
    have hhead : ∀ l : List Nat, l.getD 0 0 = l.headD 0 := by
      intro l; cases l <;> rfl
    have htail : ∀ (l : List Nat) (j : Nat), l.getD (j + 1) 0 = l.tail.getD j 0 := by
      intro l j; cases l <;> simp
    unfold memcmp
    split_ifs with h
    · rw [ih]
      constructor
      · intro H i hi
        cases i with
        | zero => rw [hhead, hhead]; exact h
        | succ j => rw [htail, htail]; exact H j (by omega)
      · intro H i hi
        have := H (i + 1) (by omega)
        rwa [htail, htail] at this
    · constructor
      · intro H
        exact absurd (by omega) h
      · intro H
        have := H 0 (by omega)
        rw [hhead, hhead] at this
        exact absurd this h

theorem failure_not_mem_succeed (e : Env) (s : State) :
    Event.stdout Msg.failure ∉ (succeed e s).trace := by
  intro h
  have := mem_succeed_trace e s _ h
  simp at this

/-! ## Success and failure of a run -/

theorem decides_emit {k : Result} {c : Prop} (ev : Event) (h : Decides k c)
    (h1 : ev ≠ .stdout .success) (h2 : ev ≠ .stdout .failure) : Decides (emit ev k) c := by
  rcases h with ⟨⟨hx, hs, hf⟩, hc⟩ | ⟨⟨hx, hf, hs⟩, hc⟩
  · exact Or.inl ⟨⟨hx, by simp [hs], by simp [hf, h2.symm]⟩, hc⟩
  · exact Or.inr ⟨⟨hx, by simp [hf], by simp [hs, h1.symm]⟩, hc⟩

theorem decides_congr {k : Result} {c d : Prop} (h : Decides k c) (hcd : c ↔ d) :
    Decides k d := by
  rcases h with ⟨hr, hc⟩ | ⟨hr, hc⟩
  · exact Or.inl ⟨hr, hcd.mp hc⟩
  · exact Or.inr ⟨hr, fun hd => hc (hcd.mpr hd)⟩

theorem decides_failed (s : State) {c : Prop} (hc : ¬c) : Decides (failed s) c :=
  Or.inr ⟨⟨rfl, by simp, by simp⟩, hc⟩

theorem decides_succeed (e : Env) (s : State) {c : Prop} (hc : c) :
    Decides (succeed e s) c :=
  Or.inl ⟨⟨succeed_exit e s, success_mem_succeed e s, failure_not_mem_succeed e s⟩, hc⟩

theorem decides_ite {p : Prop} [Decidable p] {a b : Result} {c : Prop}
    (ha : p → Decides a c) (hb : ¬p → Decides b c) :
    Decides (if p then a else b) c := by
  split_ifs with h
  · exact ha h
  · exact hb h

theorem loggedin_decides (e : Env) (s : State) :
    Decides (loggedin e s) (decryptOk e) := by
  unfold loggedin
  simp only [RANDOM_SIZE]
  refine decides_emit _ (decides_ite (fun h1 => ?_) (fun h1 => ?_)) (by simp) (by simp)
  · exact decides_emit _ (decides_failed s (by simp [decryptOk, h1])) (by simp) (by simp)
  refine decides_emit _ (decides_ite (fun h2 => ?_) (fun h2 => ?_)) (by simp) (by simp)
  · exact decides_failed s (by simp [decryptOk, h2])
  refine decides_emit _ (decides_ite (fun h3 => ?_) (fun h3 => ?_)) (by simp) (by simp)
  · exact decides_emit _ (decides_failed s (by simp_all [decryptOk])) (by simp) (by simp)
  refine decides_emit _ (decides_ite (fun h4 => ?_) (fun h4 => ?_)) (by simp) (by simp)
  · exact decides_emit _ (decides_failed s (by simp_all [decryptOk])) (by simp) (by simp)
  · exact decides_succeed e s (by simp_all [decryptOk])

theorem toNat_strlen_pred (n : Nat) : ((n : Int) - 1).toNat = n - 1 := by omega

theorem doLogin_decides (e : Env) (s : State) :
    Decides (doLogin e s)
      (0 < strlen s.password ∧ e.login (pinOf s.password) = 0 ∧ decryptOk e) := by
  unfold doLogin
  simp only [toNat_strlen_pred]
  refine decides_ite (fun h1 => ?_) (fun h1 => ?_)
  · exact decides_failed s (by omega)
  have hpos : 0 < strlen s.password := by omega
  refine decides_emit _ (decides_emit _ (decides_ite (fun h2 => ?_) (fun h2 => ?_))
    (by simp) (by simp)) (by simp) (by simp)
  · exact decides_emit _ (decides_failed _ (by simp_all [pinOf])) (by simp) (by simp)
  · exact decides_congr (loggedin_decides e _) (by simp_all [pinOf])

theorem prompt_decides (e : Env) (s : State) :
    Decides (prompt e s)
      (e.tcgetattr = 0 ∧ e.tcsetattrNew = 0 ∧
        ∃ buf, fgets s.password 20 e.stdin = some buf ∧ 0 < strlen buf ∧
          e.login (pinOf buf) = 0 ∧ decryptOk e) := by
  unfold prompt
  refine decides_emit _ (decides_ite (fun h1 => ?_) (fun h1 => ?_)) (by simp) (by simp)
  · exact decides_failed s (by simp [h1])
  refine decides_emit _ (decides_ite (fun h2 => ?_) (fun h2 => ?_)) (by simp) (by simp)
  · exact decides_failed s (by simp [h2])
  simp only []
  refine decides_emit _ ?_ (by simp) (by simp)
  split
  · rename_i hf
    exact decides_emit _ (decides_failed _ (by simp [hf])) (by simp) (by simp)
  · rename_i buf hf
    refine decides_emit _ ?_ (by simp) (by simp)
    refine decides_emit _ ?_ (by simp) (by simp)
    refine decides_congr (doLogin_decides e _) ?_
    have hp : (if e.tcsetattrOld = 0 then ({ password := buf, echo := e.echo } : State)
        else { password := buf, echo := false }).password = buf := by
      split_ifs <;> rfl
    simp only [hp]
    simp_all

theorem challenge_decides (e : Env) (tok : Token) (s : State) :
    Decides (challenge e tok s)
      (e.mallocRandom = true ∧ 0 ≤ e.openFd ∧ (64 : Int) ≤ e.readRc ∧
        e.getPubkey = true ∧ e.mallocEncrypted = true ∧ 0 ≤ e.publicEncrypt ∧
        (tok.loginRequired ≠ 0 →
          e.tcgetattr = 0 ∧ e.tcsetattrNew = 0 ∧
            ∃ buf, fgets s.password 20 e.stdin = some buf ∧ 0 < strlen buf ∧
              e.login (pinOf buf) = 0) ∧
        decryptOk e) := by
  unfold challenge
  simp only [RANDOM_SIZE]
  refine decides_emit _ (decides_ite (fun h1 => ?_) (fun h1 => ?_)) (by simp) (by simp)
  · exact decides_failed s (by simp [h1])
  refine decides_emit _ (decides_ite (fun h2 => ?_) (fun h2 => ?_)) (by simp) (by simp)
  · exact decides_emit _ (decides_failed s (by intro h; omega)) (by simp) (by simp)
  refine decides_emit _ (decides_ite (fun h3 => ?_) (fun h3 => ?_)) (by simp) (by simp)
  · exact decides_emit _ (decides_emit _ (decides_failed s (by intro h; omega))
      (by simp) (by simp)) (by simp) (by simp)
  refine decides_ite (fun h4 => ?_) (fun h4 => ?_)
  · exact decides_emit _ (decides_emit _ (decides_failed s (by intro h; omega))
      (by simp) (by simp)) (by simp) (by simp)
  refine decides_emit _ (decides_emit _ (decides_ite (fun h5 => ?_) (fun h5 => ?_))
    (by simp) (by simp)) (by simp) (by simp)
  · exact decides_emit _ (decides_failed s (by simp [h5])) (by simp) (by simp)
  refine decides_emit _ (decides_ite (fun h6 => ?_) (fun h6 => ?_)) (by simp) (by simp)
  · exact decides_emit _ (decides_failed s (by simp [h6])) (by simp) (by simp)
  refine decides_emit _ (decides_ite (fun h7 => ?_) (fun h7 => ?_)) (by simp) (by simp)
  · exact decides_emit _ (decides_failed s (by intro h; omega)) (by simp) (by simp)
  have hfd : 0 ≤ e.openFd := by omega
  have hrd : (64 : Int) ≤ e.readRc := by push_cast at h4; omega
  have hlen : 0 ≤ e.publicEncrypt := by omega
  refine decides_ite (fun h8 => ?_) (fun h8 => ?_)
  · exact decides_congr (loggedin_decides e s) (by simp_all)
  · refine decides_congr (prompt_decides e s) ?_
    simp only [ne_eq, h8, not_false_eq_true, true_implies]
    constructor
    · rintro ⟨a, b, buf, hb, hp, hl, hd⟩
      simp_all
    · rintro ⟨-, -, -, -, -, -, ⟨a, b, buf, hb, hp, hl⟩, hd⟩
      exact ⟨a, b, buf, hb, hp, hl, hd⟩

theorem withToken_decides (e : Env) (tok : Token) (s : State) :
    Decides (withToken e tok s)
      (e.enumerateCerts = 0 ∧ 0 < e.ncerts ∧
        e.mallocRandom = true ∧ 0 ≤ e.openFd ∧ (64 : Int) ≤ e.readRc ∧
        e.getPubkey = true ∧ e.mallocEncrypted = true ∧ 0 ≤ e.publicEncrypt ∧
        (tok.loginRequired ≠ 0 →
          e.tcgetattr = 0 ∧ e.tcsetattrNew = 0 ∧
            ∃ buf, fgets s.password 20 e.stdin = some buf ∧ 0 < strlen buf ∧
              e.login (pinOf buf) = 0) ∧
        decryptOk e) := by
  unfold withToken
  refine decides_emit _ (decides_emit _ (decides_emit _ (decides_emit _ (decides_emit _
    (decides_emit _ (decides_emit _ (decides_ite (fun h1 => ?_) (fun h1 => ?_))
    (by simp) (by simp)) (by simp) (by simp)) (by simp) (by simp)) (by simp) (by simp))
    (by simp) (by simp)) (by simp) (by simp)) (by simp) (by simp)
  · exact decides_emit _ (decides_failed s (by simp [h1])) (by simp) (by simp)
  refine decides_ite (fun h2 => ?_) (fun h2 => ?_)
  · exact decides_emit _ (decides_failed s (by intro h; omega)) (by simp) (by simp)
  · exact decides_congr (challenge_decides e tok s) (by
      have : 0 < e.ncerts := by omega
      simp_all)

theorem decides_notoken (s : State) {c : Prop} (hc : ¬c) : Decides (notoken s) c :=
  Or.inr ⟨⟨rfl, by simp, by simp⟩, hc⟩

theorem decides_noslots (s : State) {c : Prop} (hc : ¬c) : Decides (noslots s) c :=
  Or.inr ⟨⟨rfl, by simp, by simp⟩, hc⟩

theorem decides_nolib (s : State) {c : Prop} (hc : ¬c) : Decides (nolib s) c :=
  Or.inr ⟨⟨rfl, by simp, by simp⟩, hc⟩

/-- With one argument, `main` reports success when every checked step
succeeds, the decrypt returns 64 and `memcmp` returns 0, and reports failure
otherwise. -/
theorem main_decides (e : Env) (hargc : e.argc = 2) :
    Decides (main e)
      (stepsSucceed e ∧ e.privateDecrypt = 64 ∧
        memcmp e.randomBuf e.decryptedBuf 64 = 0) := by
  unfold main
  simp only [hargc, ne_eq, not_true_eq_false, if_false]
  refine decides_emit _ (decides_emit _ (decides_ite (fun h1 => ?_) (fun h1 => ?_))
    (by simp) (by simp)) (by simp) (by simp)
  · exact decides_emit _ (decides_nolib _ (by simp [stepsSucceed, h1])) (by simp) (by simp)
  refine decides_emit _ (decides_ite (fun h2 => ?_) (fun h2 => ?_)) (by simp) (by simp)
  · exact decides_emit _ (decides_noslots _ (by simp only [stepsSucceed]; intro h; omega))
      (by simp) (by simp)
  have hs : 0 ≤ e.enumerateSlots := by omega
  refine decides_emit _ ?_ (by simp) (by simp)
  split
  · rename_i hf
    exact decides_emit _ (decides_notoken _ (by simp [stepsSucceed, hf])) (by simp) (by simp)
  · rename_i slot hf
    split
    · rename_i ht
      exact decides_emit _ (decides_notoken _ (by simp [stepsSucceed, hf, ht]))
        (by simp) (by simp)
    · rename_i tok ht
      refine decides_congr (withToken_decides e tok _) ?_
      simp only [ne_eq, not_not] at h1
      simp only [stepsSucceed, loginSucceeds, decryptOk, RANDOM_SIZE, Nat.cast_ofNat]
      constructor
      · rintro ⟨c1, c2, c3, c4, c5, c6, c7, c8, hl, hk, hm, hp, hc⟩
        exact ⟨⟨h1, hs, ⟨slot, tok, hf, ht, hl⟩, c1, c2, c3, c4, c5, c6, c7, c8, hk, hm⟩,
          hp, hc⟩
      · rintro ⟨⟨-, -, ⟨slot2, tok2, hf2, ht2, hl⟩, c1, c2, c3, c4, c5, c6, c7, c8, hk, hm⟩,
          hp, hc⟩
        rw [hf] at hf2
        cases hf2
        rw [ht] at ht2
        cases ht2
        exact ⟨c1, c2, c3, c4, c5, c6, c7, c8, hl, hk, hm, hp, hc⟩

theorem scenario_stepsSucceed : stepsSucceed scenario :=
  ⟨rfl, by decide, ⟨_, _, rfl, rfl, fun _ => ⟨rfl, rfl, _, rfl, by decide, by decide⟩⟩,
    rfl, by decide, rfl, by decide, by decide, rfl, rfl, by decide, rfl, rfl⟩

/-- C1: with exactly one argument, `main` returns 0 and prints the success
line if and only if every checked step succeeds, `PKCS11_private_decrypt`
returns exactly `RANDOM_SIZE` and the first `RANDOM_SIZE` bytes of the
decrypted buffer equal the challenge byte for byte; and whenever one of these
bytes differs, the run returns 1, prints the failure line and does not print
the success line. -/
theorem main_success_iff (e : Env) (hargc : e.argc = 2) :
    (((main e).exit = 0 ∧ Event.stdout Msg.success ∈ (main e).trace) ↔
      (stepsSucceed e ∧ e.privateDecrypt = (RANDOM_SIZE : Int) ∧
        ∀ i, i < RANDOM_SIZE → e.decryptedBuf.getD i 0 = e.randomBuf.getD i 0)) ∧
    ((∃ i, i < RANDOM_SIZE ∧ e.decryptedBuf.getD i 0 ≠ e.randomBuf.getD i 0) →
      (main e).exit = 1 ∧ Event.stdout Msg.failure ∈ (main e).trace ∧
        Event.stdout Msg.success ∉ (main e).trace) := by
  have hm : (memcmp e.randomBuf e.decryptedBuf 64 = 0) ↔
      ∀ i, i < 64 → e.decryptedBuf.getD i 0 = e.randomBuf.getD i 0 := by
    rw [memcmp_eq_zero_iff]
    exact ⟨fun h i hi => (h i hi).symm, fun h i hi => (h i hi).symm⟩
  simp only [RANDOM_SIZE, Nat.cast_ofNat]
  rcases main_decides e hargc with ⟨⟨hx, hs, _⟩, hc1, hc2, hc3⟩ | ⟨⟨hx, hf, hs⟩, hc⟩
  · refine ⟨⟨fun _ => ⟨hc1, hc2, hm.mp hc3⟩, fun _ => ⟨hx, hs⟩⟩, ?_⟩
    rintro ⟨i, hi, hne⟩
    exact absurd (hm.mp hc3 i hi) hne
  · refine ⟨⟨fun h => absurd h.2 hs, fun h => absurd ⟨h.1, h.2.1, hm.mpr h.2.2⟩ hc⟩, ?_⟩
    intro _
    exact ⟨hx, hf, hs⟩

/-- The PIN scenario succeeds; with one byte of the answer changed it
fails. -/
theorem main_success_iff_witness :
    ((main scenario).exit = 0 ∧ Event.stdout Msg.success ∈ (main scenario).trace) ∧
    ((main oneByteOff).exit = 1 ∧ Event.stdout Msg.failure ∈ (main oneByteOff).trace ∧
      Event.stdout Msg.success ∉ (main oneByteOff).trace) :=
  ⟨(main_success_iff scenario rfl).1.mpr ⟨scenario_stepsSucceed, rfl, by decide⟩,
    (main_success_iff oneByteOff rfl).2 ⟨5, by decide, by decide⟩⟩


/-! ## Exit codes -/

/-- C2 as stated fails: a run without argument and a run whose module fails
to load lie in two different failure classes (one prints the usage line, the
other the load diagnostic) and return the same exit code. -/
theorem exit_codes_not_distinct :
    Event.stderr Msg.usage ∈ (main missingArgument).trace ∧
    Event.stderr Msg.loadFailed ∈ (main loadFailure).trace ∧
    Event.stderr Msg.usage ∉ (main loadFailure).trace ∧
    (main missingArgument).exit = 1 ∧ (main loadFailure).exit = 1 := by
  decide

/-- C2, amended: the exit code is 0 exactly when the run prints the success
line, so it is non-zero on every failure; a missing argument and a module
that fails to load both give the code 1. -/
theorem exit_codes (e : Env) :
    ((main e).exit = 0 ↔ Event.stdout Msg.success ∈ (main e).trace) ∧
    (e.argc ≠ 2 → (main e).exit = 1 ∧ (main e).trace = [Event.stderr Msg.usage]) ∧
    (e.argc = 2 → e.ctxLoad ≠ 0 →
      (main e).exit = 1 ∧ Event.stderr Msg.loadFailed ∈ (main e).trace) := by
  refine ⟨?_, ?_, ?_⟩
  · by_cases hargc : e.argc = 2
    · rcases main_decides e hargc with ⟨⟨hx, hs, _⟩, _⟩ | ⟨⟨hx, _, hs⟩, _⟩
      · simp [hx, hs]
      · simp [hx, hs]
    · simp [main, hargc, State.ret]
  · intro hargc
    simp [main, hargc, State.ret]
  · intro hargc hload
    simp [main, hargc, hload]

/-- Both runs of the counterexample fall under the amended statement. -/
theorem exit_codes_witness :
    ((main missingArgument).exit = 1 ∧
      (main missingArgument).trace = [Event.stderr Msg.usage]) ∧
    ((main loadFailure).exit = 1 ∧
      Event.stderr Msg.loadFailed ∈ (main loadFailure).trace) :=
  ⟨(exit_codes missingArgument).2.1 (by decide),
    (exit_codes loadFailure).2.2 rfl (by decide)⟩

/-! ## Runs on which the code departs from its specification -/

/-- C3 at a failing input: when `open` fails, the challenge buffer has been
allocated, the run ends through `failed:` with exit code 1, and no `free` of
the buffer occurs. -/
theorem challenge_buffer_not_freed :
    Event.malloc Res.random true ∈ (main openFails).trace ∧
    Event.free Res.random ∉ (main openFails).trace ∧
    (main openFails).exit = 1 := by
  decide

/-- C8 at a failing input: the operator types `ab`, a zero byte, `cd` and
newline.  `fgets` stores all six bytes and the terminating zero, the pin
passed on is `a` and the login succeeds; after the `memset` that follows the
login, and while `PKCS11_find_key` and `PKCS11_private_decrypt` run, the bytes
`c`, `d` and newline are still in `password`, up to the return of `main`. -/
theorem password_not_wiped :
    fgets nulInPassword.passwordInit 20 nulInPassword.stdin =
      some ([97, 98, 0, 99, 100, 10, 0] ++ List.replicate 13 170) ∧
    Event.login [97] 0 ∈ (main nulInPassword).trace ∧
    Event.memset 1 ∈ (main nulInPassword).trace ∧
    Event.privateDecrypt 128 64 ∈ (main nulInPassword).trace ∧
    (main nulInPassword).password = [0, 0, 0, 99, 100, 10, 0] ++ List.replicate 13 170 := by
  decide

/-- C9 at a failing input: echo is on when `main` starts, `tcsetattr` turns
it off, `fgets` returns `NULL`, and `main` returns 1 with echo still off and
without a second `tcsetattr`. -/
theorem echo_left_off :
    eofAtPrompt.echo = true ∧
    Event.tcsetattr false 0 ∈ (main eofAtPrompt).trace ∧
    Event.fgets false ∈ (main eofAtPrompt).trace ∧
    Event.tcsetattr true 0 ∉ (main eofAtPrompt).trace ∧
    (main eofAtPrompt).echo = false ∧ (main eofAtPrompt).exit = 1 := by
  decide


/-! ## Runs without events of a given class -/

theorem noEvent_emit {bad : Event → Bool} {k : Result} (ev : Event)
    (hev : bad ev = false) (hk : NoEvent bad k) : NoEvent bad (emit ev k) := by
  intro x hx
  simp only [emit_trace, List.mem_cons] at hx
  rcases hx with rfl | hx
  · exact hev
  · exact hk x hx

theorem noEvent_ite {bad : Event → Bool} {p : Prop} [Decidable p] {a b : Result}
    (ha : p → NoEvent bad a) (hb : ¬p → NoEvent bad b) :
    NoEvent bad (if p then a else b) := by
  split_ifs with h
  · exact ha h
  · exact hb h

theorem noEvent_of_trace {bad : Event → Bool} {r : Result} (l : List Event)
    (hr : r.trace = l) (hl : ∀ ev ∈ l, bad ev = false) : NoEvent bad r := by
  intro x hx
  rw [hr] at hx
  exact hl x hx

/-! ## Events after `loggedin:` -/

theorem succeed_no_promptEvent (e : Env) (s : State) : NoEvent promptEvent (succeed e s) := by
  intro x hx
  rcases mem_succeed_trace e s x hx with h | h | h | ⟨r, h⟩ | h | h | h | h | h <;>
    simp [h, promptEvent]

theorem failed_no_promptEvent (s : State) : NoEvent promptEvent (failed s) :=
  noEvent_of_trace _ (failed_trace s) (by simp [promptEvent])

theorem loggedin_no_promptEvent (e : Env) (s : State) :
    NoEvent promptEvent (loggedin e s) := by
  unfold loggedin
  refine noEvent_emit _ rfl (noEvent_ite (fun _ => ?_) (fun _ => ?_))
  · exact noEvent_emit _ rfl (failed_no_promptEvent s)
  refine noEvent_emit _ rfl (noEvent_ite (fun _ => ?_) (fun _ => ?_))
  · exact failed_no_promptEvent s
  refine noEvent_emit _ rfl (noEvent_ite (fun _ => ?_) (fun _ => ?_))
  · exact noEvent_emit _ rfl (failed_no_promptEvent s)
  refine noEvent_emit _ rfl (noEvent_ite (fun _ => ?_) (fun _ => ?_))
  · exact noEvent_emit _ rfl (failed_no_promptEvent s)
  · exact succeed_no_promptEvent e s

theorem loggedin_no_login (e : Env) (s : State) (pin : List Nat) (rc : Int) :
    Event.login pin rc ∉ (loggedin e s).trace := fun h => by
  simpa [promptEvent] using loggedin_no_promptEvent e s _ h

/-! ## A failed login -/

theorem loginFailureStops_of_no_login {r : Result}
    (h : ∀ pin rc, Event.login pin rc ∉ r.trace) : LoginFailureStops r :=
  fun pin rc hmem _ => absurd hmem (h pin rc)

theorem loginFailureStops_emit {k : Result} (ev : Event) (hk : LoginFailureStops k)
    (h1 : ∀ pin rc, ev ≠ .login pin rc) (h2 : ∀ ok, ev ≠ .findKey ok)
    (h3 : ∀ flen x, ev ≠ .privateDecrypt flen x) (h4 : ev ≠ .stdout .success) :
    LoginFailureStops (emit ev k) := by
  intro pin rc hmem hrc
  simp only [emit_trace, List.mem_cons] at hmem
  rcases hmem with hmem | hmem
  · exact absurd hmem.symm (h1 pin rc)
  · obtain ⟨a, b, c, d⟩ := hk pin rc hmem hrc
    refine ⟨fun ok => ?_, fun flen x => ?_, ?_, d⟩
    · simp [a ok, (h2 ok).symm]
    · simp [b flen x, (h3 flen x).symm]
    · simp [c, h4.symm]

theorem loginFailureStops_ite {p : Prop} [Decidable p] {a b : Result}
    (ha : p → LoginFailureStops a) (hb : ¬p → LoginFailureStops b) :
    LoginFailureStops (if p then a else b) := by
  split_ifs with h
  · exact ha h
  · exact hb h

theorem doLogin_loginFailureStops (e : Env) (s : State) :
    LoginFailureStops (doLogin e s) := by
  unfold doLogin
  simp only [toNat_strlen_pred]
  refine loginFailureStops_ite (fun h1 => ?_) (fun h1 => ?_)
  · exact loginFailureStops_of_no_login (by simp)
  intro pin rc hmem hrc
  by_cases h2 : e.login (cstr (s.password.set (strlen s.password - 1) 0)) ≠ 0
  · simp [h2]
  · simp only [h2, if_false, emit_trace, List.mem_cons, Event.login.injEq, reduceCtorEq,
      false_or] at hmem
    simp only [ne_eq, not_not] at h2
    rcases hmem with ⟨-, h⟩ | h
    · exact absurd (h.trans h2) hrc
    · exact absurd h (loggedin_no_login e _ pin rc)

theorem failed_loginFailureStops (s : State) : LoginFailureStops (failed s) :=
  loginFailureStops_of_no_login (by simp)

theorem prompt_loginFailureStops (e : Env) (s : State) :
    LoginFailureStops (prompt e s) := by
  unfold prompt
  refine loginFailureStops_emit _ (loginFailureStops_ite (fun _ => ?_) (fun _ => ?_))
    (by simp) (by simp) (by simp) (by simp)
  · exact failed_loginFailureStops s
  refine loginFailureStops_emit _ (loginFailureStops_ite (fun _ => ?_) (fun _ => ?_))
    (by simp) (by simp) (by simp) (by simp)
  · exact failed_loginFailureStops s
  simp only []
  refine loginFailureStops_emit _ ?_ (by simp) (by simp) (by simp) (by simp)
  split
  · exact loginFailureStops_emit _ (failed_loginFailureStops _)
      (by simp) (by simp) (by simp) (by simp)
  · exact loginFailureStops_emit _ (loginFailureStops_emit _ (doLogin_loginFailureStops e _)
      (by simp) (by simp) (by simp) (by simp)) (by simp) (by simp) (by simp) (by simp)

theorem challenge_loginFailureStops (e : Env) (tok : Token) (s : State) :
    LoginFailureStops (challenge e tok s) := by
  unfold challenge
  refine loginFailureStops_emit _ (loginFailureStops_ite (fun _ => ?_) (fun _ => ?_))
    (by simp) (by simp) (by simp) (by simp)
  · exact failed_loginFailureStops s
  refine loginFailureStops_emit _ (loginFailureStops_ite (fun _ => ?_) (fun _ => ?_))
    (by simp) (by simp) (by simp) (by simp)
  · exact loginFailureStops_of_no_login (by simp)
  refine loginFailureStops_emit _ (loginFailureStops_ite (fun _ => ?_) (fun _ => ?_))
    (by simp) (by simp) (by simp) (by simp)
  · exact loginFailureStops_of_no_login (by simp)
  refine loginFailureStops_ite (fun _ => ?_) (fun _ => ?_)
  · exact loginFailureStops_of_no_login (by simp)
  refine loginFailureStops_emit _ (loginFailureStops_emit _
    (loginFailureStops_ite (fun _ => ?_) (fun _ => ?_))
    (by simp) (by simp) (by simp) (by simp)) (by simp) (by simp) (by simp) (by simp)
  · exact loginFailureStops_of_no_login (by simp)
  refine loginFailureStops_emit _ (loginFailureStops_ite (fun _ => ?_) (fun _ => ?_))
    (by simp) (by simp) (by simp) (by simp)
  · exact loginFailureStops_of_no_login (by simp)
  refine loginFailureStops_emit _ (loginFailureStops_ite (fun _ => ?_) (fun _ => ?_))
    (by simp) (by simp) (by simp) (by simp)
  · exact loginFailureStops_of_no_login (by simp)
  refine loginFailureStops_ite (fun _ => ?_) (fun _ => ?_)
  · exact loginFailureStops_of_no_login (loggedin_no_login e s)
  · exact prompt_loginFailureStops e s

theorem withToken_loginFailureStops (e : Env) (tok : Token) (s : State) :
    LoginFailureStops (withToken e tok s) := by
  unfold withToken
  refine loginFailureStops_emit _ (loginFailureStops_emit _ (loginFailureStops_emit _
    (loginFailureStops_emit _ (loginFailureStops_emit _ (loginFailureStops_emit _
    (loginFailureStops_emit _ (loginFailureStops_ite (fun _ => ?_) (fun _ => ?_))
    (by simp) (by simp) (by simp) (by simp)) (by simp) (by simp) (by simp) (by simp))
    (by simp) (by simp) (by simp) (by simp)) (by simp) (by simp) (by simp) (by simp))
    (by simp) (by simp) (by simp) (by simp)) (by simp) (by simp) (by simp) (by simp))
    (by simp) (by simp) (by simp) (by simp)
  · exact loginFailureStops_of_no_login (by simp)
  refine loginFailureStops_ite (fun _ => ?_) (fun _ => ?_)
  · exact loginFailureStops_of_no_login (by simp)
  · exact challenge_loginFailureStops e tok s

theorem main_loginFailureStops (e : Env) : LoginFailureStops (main e) := by
  unfold main
  refine loginFailureStops_ite (fun _ => ?_) (fun _ => ?_)
  · exact loginFailureStops_of_no_login (by simp [State.ret])
  refine loginFailureStops_emit _ (loginFailureStops_emit _
    (loginFailureStops_ite (fun _ => ?_) (fun _ => ?_))
    (by simp) (by simp) (by simp) (by simp)) (by simp) (by simp) (by simp) (by simp)
  · exact loginFailureStops_of_no_login (by simp)
  refine loginFailureStops_emit _ (loginFailureStops_ite (fun _ => ?_) (fun _ => ?_))
    (by simp) (by simp) (by simp) (by simp)
  · exact loginFailureStops_of_no_login (by simp)
  refine loginFailureStops_emit _ ?_ (by simp) (by simp) (by simp) (by simp)
  split
  · exact loginFailureStops_of_no_login (by simp)
  · split
    · exact loginFailureStops_of_no_login (by simp)
    · exact withToken_loginFailureStops e _ _

/-- C4: in every run in which `PKCS11_login` is called and returns a non-zero
result, neither `PKCS11_find_key` nor `PKCS11_private_decrypt` is called, the
success line is not printed and the exit code is 1. -/
theorem failed_login_stops (e : Env) (pin : List Nat) (rc : Int)
    (hlogin : Event.login pin rc ∈ (main e).trace) (hrc : rc ≠ 0) :
    (∀ ok, Event.findKey ok ∉ (main e).trace) ∧
    (∀ flen x, Event.privateDecrypt flen x ∉ (main e).trace) ∧
    Event.stdout Msg.success ∉ (main e).trace ∧ (main e).exit = 1 :=
  main_loginFailureStops e pin rc hlogin hrc

/-- The wrong-PIN run of the end-to-end scenario: the token requires login,
the login is called with `123` and fails. -/
theorem failed_login_stops_witness :
    Event.login [49, 50, 51] (-1) ∈ (main wrongPin).trace ∧
    ((∀ ok, Event.findKey ok ∉ (main wrongPin).trace) ∧
      (∀ flen x, Event.privateDecrypt flen x ∉ (main wrongPin).trace) ∧
      Event.stdout Msg.success ∉ (main wrongPin).trace ∧ (main wrongPin).exit = 1) :=
  ⟨by decide, failed_login_stops wrongPin [49, 50, 51] (-1) (by decide) (by decide)⟩


/-! ## A token that does not require login -/

theorem eachFollowedBy_of_free (R : Event → Option Event → Bool) (l : List Event)
    (h : ∀ x ∈ l, ∀ n, R x n = true) : eachFollowedBy R l = true := by
  induction l with
  | nil => rfl
  | cons a rest ih =>
    simp only [eachFollowedBy, Bool.and_eq_true]
    exact ⟨h a (by simp) _, ih (fun x hx => h x (by simp [hx]))⟩

theorem eachFollowedBy_emit (R : Event → Option Event → Bool) (ev : Event) (k : Result)
    (hev : R ev k.trace.head? = true) (hk : eachFollowedBy R k.trace = true) :
    eachFollowedBy R (emit ev k).trace = true := by
  simp only [emit_trace, eachFollowedBy, Bool.and_eq_true]
  exact ⟨hev, hk⟩

theorem failed_directOrder (s : State) :
    eachFollowedBy directOrder (failed s).trace = true := by
  rw [failed_trace]
  decide

theorem succeed_directOrder (e : Env) (s : State) :
    eachFollowedBy directOrder (succeed e s).trace = true := by
  refine eachFollowedBy_of_free _ _ (fun x hx n => ?_)
  rcases mem_succeed_trace e s x hx with h | h | h | ⟨r, h⟩ | h | h | h | h | h <;>
    simp [h, directOrder]

theorem loggedin_directOrder (e : Env) (s : State) :
    eachFollowedBy directOrder (loggedin e s).trace = true := by
  unfold loggedin
  by_cases h1 : e.findKey = false
  · simp [h1, eachFollowedBy, directOrder]
  simp only [h1, if_false]
  simp only [Bool.not_eq_false] at h1
  refine eachFollowedBy_emit _ _ _ (by simp [h1, directOrder]) ?_
  by_cases h2 : e.mallocDecrypted = false
  · simp [h2, eachFollowedBy, directOrder]
  simp only [h2, if_false]
  simp only [Bool.not_eq_false] at h2
  refine eachFollowedBy_emit _ _ _ (by simp [h2, directOrder]) ?_
  refine eachFollowedBy_emit _ _ _ rfl ?_
  split_ifs with h3 h4
  · simp [eachFollowedBy, directOrder]
  · simp [eachFollowedBy, directOrder]
  · exact eachFollowedBy_emit _ _ _ rfl (succeed_directOrder e s)


theorem challenge_no_promptEvent (e : Env) (tok : Token) (s : State)
    (hl : tok.loginRequired = 0) : NoEvent promptEvent (challenge e tok s) := by
  unfold challenge
  refine noEvent_emit _ rfl (noEvent_ite (fun _ => ?_) (fun _ => ?_))
  · exact failed_no_promptEvent s
  refine noEvent_emit _ rfl (noEvent_ite (fun _ => ?_) (fun _ => ?_))
  · exact noEvent_emit _ rfl (failed_no_promptEvent s)
  refine noEvent_emit _ rfl (noEvent_ite (fun _ => ?_) (fun _ => ?_))
  · exact noEvent_emit _ rfl (noEvent_emit _ rfl (failed_no_promptEvent s))
  refine noEvent_ite (fun _ => ?_) (fun _ => ?_)
  · exact noEvent_emit _ rfl (noEvent_emit _ rfl (failed_no_promptEvent s))
  refine noEvent_emit _ rfl (noEvent_emit _ rfl (noEvent_ite (fun _ => ?_) (fun _ => ?_)))
  · exact noEvent_emit _ rfl (failed_no_promptEvent s)
  refine noEvent_emit _ rfl (noEvent_ite (fun _ => ?_) (fun _ => ?_))
  · exact noEvent_emit _ rfl (failed_no_promptEvent s)
  refine noEvent_emit _ rfl (noEvent_ite (fun _ => ?_) (fun _ => ?_))
  · exact noEvent_emit _ rfl (failed_no_promptEvent s)
  simp only [hl, if_true]
  exact loggedin_no_promptEvent e s

theorem challenge_directOrder (e : Env) (tok : Token) (s : State)
    (hl : tok.loginRequired = 0) :
    eachFollowedBy directOrder (challenge e tok s).trace = true := by
  unfold challenge
  simp only [hl, if_true]
  refine eachFollowedBy_emit _ _ _ (by simp [directOrder]) ?_
  split_ifs with h1 h2 h3 h4 h5 h6 h7
  · exact failed_directOrder s
  · simp [eachFollowedBy, directOrder]
  · simp [eachFollowedBy, directOrder]
  · simp [eachFollowedBy, directOrder]
  · simp [eachFollowedBy, directOrder]
  · simp [eachFollowedBy, directOrder]
  · simp [eachFollowedBy, directOrder, h7]
  · refine eachFollowedBy_emit _ _ _ rfl (eachFollowedBy_emit _ _ _ rfl
      (eachFollowedBy_emit _ _ _ rfl (eachFollowedBy_emit _ _ _ rfl
      (eachFollowedBy_emit _ _ _ (by simp [directOrder])
      (eachFollowedBy_emit _ _ _ ?_ (loggedin_directOrder e s))))))
    simp [directOrder, loggedin]

theorem withToken_no_promptEvent (e : Env) (tok : Token) (s : State)
    (hl : tok.loginRequired = 0) : NoEvent promptEvent (withToken e tok s) := by
  unfold withToken
  refine noEvent_emit _ rfl (noEvent_emit _ rfl (noEvent_emit _ rfl (noEvent_emit _ rfl
    (noEvent_emit _ rfl (noEvent_emit _ rfl (noEvent_emit _ rfl
    (noEvent_ite (fun _ => ?_) (fun _ => ?_))))))))
  · exact noEvent_emit _ rfl (failed_no_promptEvent s)
  refine noEvent_ite (fun _ => ?_) (fun _ => ?_)
  · exact noEvent_emit _ rfl (failed_no_promptEvent s)
  · exact challenge_no_promptEvent e tok s hl

theorem withToken_directOrder (e : Env) (tok : Token) (s : State)
    (hl : tok.loginRequired = 0) :
    eachFollowedBy directOrder (withToken e tok s).trace = true := by
  unfold withToken
  refine eachFollowedBy_emit _ _ _ rfl (eachFollowedBy_emit _ _ _ rfl
    (eachFollowedBy_emit _ _ _ rfl (eachFollowedBy_emit _ _ _ rfl
    (eachFollowedBy_emit _ _ _ rfl (eachFollowedBy_emit _ _ _ rfl
    (eachFollowedBy_emit _ _ _ rfl ?_))))))
  split_ifs
  · simp [eachFollowedBy, directOrder]
  · simp [eachFollowedBy, directOrder]
  · exact challenge_directOrder e tok s hl

/-- C5: when the token found has `loginRequired` equal to 0, the run contains
no `tcgetattr`, no `tcsetattr`, no password prompt, no `fgets`, no
`PKCS11_login` and no wipe of the password; and it goes straight on: a
successful `RSA_public_encrypt` is directly followed by `PKCS11_find_key`, a
key found by the allocation of `decrypted`, and that allocation, when it
succeeds, by `PKCS11_private_decrypt`. -/
theorem no_login_required (e : Env) (slot : Slot) (tok : Token)
    (hf : e.findToken = some slot) (ht : slot.token = some tok)
    (hl : tok.loginRequired = 0) :
    (∀ ev ∈ (main e).trace, promptEvent ev = false) ∧
    eachFollowedBy directOrder (main e).trace = true := by
  unfold main
  simp only [hf, ht]
  constructor
  · refine noEvent_ite (fun _ => ?_) (fun _ => ?_)
    · exact noEvent_of_trace [Event.stderr Msg.usage] rfl (by simp [promptEvent])
    refine noEvent_emit _ rfl (noEvent_emit _ rfl (noEvent_ite (fun _ => ?_) (fun _ => ?_)))
    · exact noEvent_of_trace _ rfl (by simp [promptEvent])
    refine noEvent_emit _ rfl (noEvent_ite (fun _ => ?_) (fun _ => ?_))
    · exact noEvent_of_trace _ rfl (by simp [promptEvent])
    · exact noEvent_emit _ rfl (withToken_no_promptEvent e tok _ hl)
  · split_ifs
    · rfl
    · simp [eachFollowedBy, directOrder]
    · simp [eachFollowedBy, directOrder]
    · exact eachFollowedBy_emit _ _ _ rfl (eachFollowedBy_emit _ _ _ rfl
        (eachFollowedBy_emit _ _ _ rfl (eachFollowedBy_emit _ _ _ rfl
        (withToken_directOrder e tok _ hl))))

/-- The scenario with a token that needs no login: the run succeeds without
any event of the prompt, and the find-key call directly follows the
encryption. -/
theorem no_login_required_witness :
    ((∀ ev ∈ (main noLogin).trace, promptEvent ev = false) ∧
      eachFollowedBy directOrder (main noLogin).trace = true) ∧
    Event.publicEncrypt 64 (List.range 64) 128 ∈ (main noLogin).trace ∧
    Event.findKey true ∈ (main noLogin).trace ∧ (main noLogin).exit = 0 :=
  ⟨no_login_required noLogin _ _ rfl rfl rfl, by decide, by decide, by decide⟩


/-! ## Runs that stop before the challenge is complete -/

/-- A run in which some checked step fails returns 1 and does not print the
success line, whatever `argc` is. -/
theorem main_fails_of_not_stepsSucceed (e : Env) (h : ¬stepsSucceed e) :
    (main e).exit = 1 ∧ Event.stdout Msg.success ∉ (main e).trace := by
  by_cases hargc : e.argc = 2
  · rcases main_decides e hargc with ⟨_, hc, _⟩ | ⟨⟨hx, _, hs⟩, _⟩
    · exact absurd hc h
    · exact ⟨hx, hs⟩
  · simp [main, hargc, State.ret]

theorem main_early_noEvent (bad : Event → Bool) (e : Env)
    (h1 : ∀ ev ∈ [Event.stderr Msg.usage, .ctxNew, .ctxLoad e.ctxLoad,
      .stderr .loadFailed, .ctxFree, .stdout .failure, .enumerateSlots e.enumerateSlots,
      .stderr .noSlots, .ctxUnload, .findToken e.findToken, .stderr .noToken,
      .releaseAllSlots], bad ev = false)
    (h2 : ∀ tok s, NoEvent bad (withToken e tok s)) : NoEvent bad (main e) := by
  have hb : ∀ ev, ev ∈ [Event.stderr Msg.usage, .ctxNew, .ctxLoad e.ctxLoad,
      .stderr .loadFailed, .ctxFree, .stdout .failure, .enumerateSlots e.enumerateSlots,
      .stderr .noSlots, .ctxUnload, .findToken e.findToken, .stderr .noToken,
      .releaseAllSlots] → bad ev = false := h1
  unfold main
  refine noEvent_ite (fun _ => ?_) (fun _ => ?_)
  · exact noEvent_of_trace [Event.stderr Msg.usage] rfl (fun x hx => hb x (by
      simp only [emit_trace, nolib_trace, noslots_trace, notoken_trace, List.mem_cons,
        List.mem_singleton, List.not_mem_nil, or_false] at hx ⊢
      tauto))
  refine noEvent_emit _ (hb _ (by simp)) (noEvent_emit _ (hb _ (by simp))
    (noEvent_ite (fun _ => ?_) (fun _ => ?_)))
  · exact noEvent_of_trace _ rfl (fun x hx => hb x (by
      simp only [emit_trace, nolib_trace, noslots_trace, notoken_trace, List.mem_cons,
        List.mem_singleton, List.not_mem_nil, or_false] at hx ⊢
      tauto))
  refine noEvent_emit _ (hb _ (by simp)) (noEvent_ite (fun _ => ?_) (fun _ => ?_))
  · exact noEvent_of_trace _ rfl (fun x hx => hb x (by
      simp only [emit_trace, nolib_trace, noslots_trace, notoken_trace, List.mem_cons,
        List.mem_singleton, List.not_mem_nil, or_false] at hx ⊢
      tauto))
  refine noEvent_emit _ (hb _ (by simp)) ?_
  split
  · exact noEvent_of_trace _ rfl (fun x hx => hb x (by
      simp only [emit_trace, nolib_trace, noslots_trace, notoken_trace, List.mem_cons,
        List.mem_singleton, List.not_mem_nil, or_false] at hx ⊢
      tauto))
  · split
    · exact noEvent_of_trace _ rfl (fun x hx => hb x (by
      simp only [emit_trace, nolib_trace, noslots_trace, notoken_trace, List.mem_cons,
        List.mem_singleton, List.not_mem_nil, or_false] at hx ⊢
      tauto))
    · exact h2 _ _


theorem failed_noEvent (bad : Event → Bool) (s : State)
    (h : ∀ ev ∈ [Event.errPrintErrors, .releaseAllSlots, .ctxUnload, .ctxFree,
      .stdout .failure], bad ev = false) : NoEvent bad (failed s) :=
  noEvent_of_trace _ (failed_trace s) h

/-- C6: when the certificate enumeration reports zero certificates, the run
returns a non-zero code without the success line, and it contains no
allocation of the challenge buffer, no `open` or `read` of the random source,
no `RSA_public_encrypt`, and nothing of the password prompt (no terminal
call, no prompt line, no `fgets`, no `PKCS11_login`). -/
theorem no_certificates_halts (e : Env) (h : e.ncerts = 0) :
    (main e).exit ≠ 0 ∧ Event.stdout Msg.success ∉ (main e).trace ∧
    ∀ ev ∈ (main e).trace, challengeEvent ev = false ∧ promptEvent ev = false := by
  have hfail := main_fails_of_not_stepsSucceed e (by
    rintro ⟨-, -, -, -, hn, -⟩
    omega)
  refine ⟨by simp [hfail.1], hfail.2, ?_⟩
  have key : NoEvent (fun ev => challengeEvent ev || promptEvent ev) (main e) := by
    refine main_early_noEvent _ e (by simp [challengeEvent, promptEvent]) (fun tok s => ?_)
    unfold withToken
    refine noEvent_emit _ rfl (noEvent_emit _ rfl (noEvent_emit _ rfl (noEvent_emit _ rfl
      (noEvent_emit _ rfl (noEvent_emit _ rfl (noEvent_emit _ rfl
      (noEvent_ite (fun _ => ?_) (fun _ => ?_))))))))
    · exact noEvent_emit _ rfl (failed_noEvent _ s (by simp [challengeEvent, promptEvent]))
    refine noEvent_ite (fun _ => ?_) (fun h2 => ?_)
    · exact noEvent_emit _ rfl (failed_noEvent _ s (by simp [challengeEvent, promptEvent]))
    · omega
  intro ev hev
  simpa using key ev hev

/-- A token without certificates: the enumeration is reached and reports
zero, and the run stops there. -/
theorem no_certificates_halts_witness :
    Event.enumerateCerts 0 0 ∈ (main noCertificates).trace ∧
    ((main noCertificates).exit ≠ 0 ∧
      Event.stdout Msg.success ∉ (main noCertificates).trace ∧
      ∀ ev ∈ (main noCertificates).trace, challengeEvent ev = false ∧ promptEvent ev = false) :=
  ⟨by decide, no_certificates_halts noCertificates rfl⟩

theorem challenge_noEvent_of_short_read (e : Env) (tok : Token) (s : State)
    (h : e.readRc < (RANDOM_SIZE : Int)) : NoEvent usesChallenge (challenge e tok s) := by
  have hf : NoEvent usesChallenge (failed s) :=
    failed_noEvent _ s (by simp [usesChallenge, promptEvent])
  unfold challenge
  refine noEvent_emit _ rfl (noEvent_ite (fun _ => hf) (fun _ => ?_))
  refine noEvent_emit _ rfl (noEvent_ite (fun _ => noEvent_emit _ rfl hf) (fun _ => ?_))
  refine noEvent_emit _ rfl (noEvent_ite
    (fun _ => noEvent_emit _ rfl (noEvent_emit _ rfl hf)) (fun _ => ?_))
  refine noEvent_ite (fun _ => noEvent_emit _ rfl (noEvent_emit _ rfl hf)) (fun h4 => ?_)
  exact absurd h h4

theorem countP_emit (p : Event → Bool) (ev : Event) (k : Result) (h : p ev = false) :
    List.countP p (emit ev k).trace = List.countP p k.trace := by
  simp [List.countP_cons, h]

theorem challenge_read_once (e : Env) (tok : Token) (s : State)
    (h : e.readRc < (RANDOM_SIZE : Int)) :
    List.countP isRead (challenge e tok s).trace ≤ 1 := by
  unfold challenge
  simp only []
  rw [countP_emit _ _ _ rfl]
  split_ifs with h1 h2 h3
  · simp [isRead]
  · simp [isRead]
  · simp [isRead, List.countP_cons]
  · simp [isRead, List.countP_cons]

theorem withToken_read_once (e : Env) (tok : Token) (s : State)
    (h : e.readRc < (RANDOM_SIZE : Int)) :
    List.countP isRead (withToken e tok s).trace ≤ 1 := by
  unfold withToken
  simp only []
  iterate 7 rw [countP_emit _ _ _ rfl]
  split_ifs
  · simp [isRead]
  · simp [isRead]
  · exact challenge_read_once e tok s h

theorem main_read_once (e : Env) (h : e.readRc < (RANDOM_SIZE : Int)) :
    List.countP isRead (main e).trace ≤ 1 := by
  unfold main
  simp only []
  split_ifs
  · simp [isRead]
  · simp [isRead]
  · simp [isRead]
  · iterate 4 rw [countP_emit _ _ _ rfl]
    split
    · simp [isRead]
    · split
      · simp [isRead]
      · exact withToken_read_once e _ _ h

/-- C7: when `read` returns less than `RANDOM_SIZE` (a negative value
included), the run returns a non-zero code without the success line, it
contains no `RSA_public_encrypt`, nothing of the password prompt, no
`PKCS11_login` and no `PKCS11_private_decrypt`, and `read` is called at most
once. -/
theorem short_read_is_fatal (e : Env) (h : e.readRc < (RANDOM_SIZE : Int)) :
    (main e).exit ≠ 0 ∧ Event.stdout Msg.success ∉ (main e).trace ∧
    (∀ ev ∈ (main e).trace, usesChallenge ev = false) ∧
    List.countP isRead (main e).trace ≤ 1 := by
  have hfail := main_fails_of_not_stepsSucceed e (by
    rintro ⟨-, -, -, -, -, -, -, hn, -⟩
    omega)
  refine ⟨by simp [hfail.1], hfail.2, ?_, ?_⟩
  · refine main_early_noEvent _ e (by simp [usesChallenge, promptEvent]) (fun tok s => ?_)
    unfold withToken
    refine noEvent_emit _ rfl (noEvent_emit _ rfl (noEvent_emit _ rfl (noEvent_emit _ rfl
      (noEvent_emit _ rfl (noEvent_emit _ rfl (noEvent_emit _ rfl
      (noEvent_ite (fun _ => ?_) (fun _ => ?_))))))))
    · exact noEvent_emit _ rfl (failed_noEvent _ s (by simp [usesChallenge, promptEvent]))
    refine noEvent_ite (fun _ => ?_) (fun _ => ?_)
    · exact noEvent_emit _ rfl (failed_noEvent _ s (by simp [usesChallenge, promptEvent]))
    · exact challenge_noEvent_of_short_read e tok s h
  · exact main_read_once e h

/-- A read of 10 bytes and a failing read: both runs contain the one `read`
and stop. -/
theorem short_read_is_fatal_witness :
    (Event.read 10 ∈ (main shortRead).trace ∧
      ((main shortRead).exit ≠ 0 ∧ Event.stdout Msg.success ∉ (main shortRead).trace ∧
        (∀ ev ∈ (main shortRead).trace, usesChallenge ev = false) ∧
        List.countP isRead (main shortRead).trace ≤ 1)) ∧
    (Event.read (-1) ∈ (main readError).trace ∧
      ((main readError).exit ≠ 0 ∧ Event.stdout Msg.success ∉ (main readError).trace ∧
        (∀ ev ∈ (main readError).trace, usesChallenge ev = false) ∧
        List.countP isRead (main readError).trace ≤ 1)) :=
  ⟨⟨by decide, short_read_is_fatal shortRead (by decide)⟩,
    ⟨by decide, short_read_is_fatal readError (by decide)⟩⟩


/-! ## Properties carried through the steps before the prompt -/

/-- A property that holds at every `return`, survives every event of the early
steps and holds for the prompt and for `loggedin:` holds for
`challenge`. -/
theorem challenge_ind (P : Result → Prop) (e : Env) (tok : Token) (s : State)
    (hret : ∀ code, P (s.ret code))
    (hemit : ∀ ev k, lateEvent ev = false → P k → P (emit ev k))
    (hlogged : P (loggedin e s)) (hprompt : P (prompt e s)) :
    P (challenge e tok s) := by
  have hf : P (failed s) :=
    hemit _ _ rfl (hemit _ _ rfl (hemit _ _ rfl (hemit _ _ rfl (hemit _ _ rfl (hret 1)))))
  unfold challenge
  simp only []
  split_ifs
  · exact hemit _ _ rfl hf
  · exact hemit _ _ rfl (hemit _ _ rfl (hemit _ _ rfl hf))
  · exact hemit _ _ rfl (hemit _ _ rfl (hemit _ _ rfl (hemit _ _ rfl (hemit _ _ rfl hf))))
  · exact hemit _ _ rfl (hemit _ _ rfl (hemit _ _ rfl (hemit _ _ rfl (hemit _ _ rfl hf))))
  · exact hemit _ _ rfl (hemit _ _ rfl (hemit _ _ rfl (hemit _ _ rfl (hemit _ _ rfl
      (hemit _ _ rfl hf)))))
  · exact hemit _ _ rfl (hemit _ _ rfl (hemit _ _ rfl (hemit _ _ rfl (hemit _ _ rfl
      (hemit _ _ rfl (hemit _ _ rfl hf))))))
  · exact hemit _ _ rfl (hemit _ _ rfl (hemit _ _ rfl (hemit _ _ rfl (hemit _ _ rfl
      (hemit _ _ rfl (hemit _ _ rfl (hemit _ _ rfl hf)))))))
  · exact hemit _ _ rfl (hemit _ _ rfl (hemit _ _ rfl (hemit _ _ rfl (hemit _ _ rfl
      (hemit _ _ rfl (hemit _ _ rfl hlogged))))))
  · exact hemit _ _ rfl (hemit _ _ rfl (hemit _ _ rfl (hemit _ _ rfl (hemit _ _ rfl
      (hemit _ _ rfl (hemit _ _ rfl hprompt))))))

/-- The same for `main` as a whole, from the state `main` starts in. -/
theorem main_ind (P : Result → Prop) (e : Env)
    (hret : ∀ code, P (State.ret { password := e.passwordInit, echo := e.echo } code))
    (hemit : ∀ ev k, lateEvent ev = false → P k → P (emit ev k))
    (hlogged : P (loggedin e { password := e.passwordInit, echo := e.echo }))
    (hprompt : P (prompt e { password := e.passwordInit, echo := e.echo })) :
    P (main e) := by
  have hn : P (nolib { password := e.passwordInit, echo := e.echo }) :=
    hemit _ _ rfl (hemit _ _ rfl (hret 1))
  have hf : P (failed { password := e.passwordInit, echo := e.echo }) :=
    hemit _ _ rfl (hemit _ _ rfl (hemit _ _ rfl hn))
  have hw : ∀ tok, P (withToken e tok { password := e.passwordInit, echo := e.echo }) := by
    intro tok
    unfold withToken
    simp only []
    split_ifs
    · exact hemit _ _ rfl (hemit _ _ rfl (hemit _ _ rfl (hemit _ _ rfl (hemit _ _ rfl
        (hemit _ _ rfl (hemit _ _ rfl (hemit _ _ rfl hf)))))))
    · exact hemit _ _ rfl (hemit _ _ rfl (hemit _ _ rfl (hemit _ _ rfl (hemit _ _ rfl
        (hemit _ _ rfl (hemit _ _ rfl (hemit _ _ rfl hf)))))))
    · exact hemit _ _ rfl (hemit _ _ rfl (hemit _ _ rfl (hemit _ _ rfl (hemit _ _ rfl
        (hemit _ _ rfl (hemit _ _ rfl
        (challenge_ind P e tok _ hret hemit hlogged hprompt)))))))
  unfold main
  simp only []
  split_ifs
  · exact hemit _ _ rfl (hret 1)
  · exact hemit _ _ rfl (hemit _ _ rfl (hemit _ _ rfl hn))
  · exact hemit _ _ rfl (hemit _ _ rfl (hemit _ _ rfl (hemit _ _ rfl (hemit _ _ rfl hn))))
  · refine hemit _ _ rfl (hemit _ _ rfl (hemit _ _ rfl (hemit _ _ rfl ?_)))
    split
    · exact hemit _ _ rfl (hemit _ _ rfl (hemit _ _ rfl hn))
    · split
      · exact hemit _ _ rfl (hemit _ _ rfl (hemit _ _ rfl hn))
      · exact hw _

/-! ## The pin handed to `PKCS11_login` -/

theorem loginArg_emit {Q : List Nat → Prop} {k : Result} (ev : Event)
    (hev : ∀ pin rc, ev ≠ .login pin rc) (hk : LoginArg Q k) : LoginArg Q (emit ev k) := by
  intro pin rc hmem
  simp only [emit_trace, List.mem_cons] at hmem
  rcases hmem with hmem | hmem
  · exact absurd hmem.symm (hev pin rc)
  · exact hk pin rc hmem

theorem loginArg_of_no_login {Q : List Nat → Prop} {r : Result}
    (h : ∀ pin rc, Event.login pin rc ∉ r.trace) : LoginArg Q r :=
  fun pin rc hmem => absurd hmem (h pin rc)

theorem doLogin_loginArg (e : Env) (s : State) :
    LoginArg (fun pin => 0 < strlen s.password ∧ pin = pinOf s.password) (doLogin e s) := by
  unfold doLogin
  simp only [toNat_strlen_pred]
  intro pin rc hmem
  split_ifs at hmem with h1 h2
  · simp at hmem
  · simp only [emit_trace, failed_trace, List.mem_cons, Event.login.injEq, reduceCtorEq,
      List.mem_singleton, List.not_mem_nil, or_false, false_or] at hmem
    exact ⟨by omega, by simp [pinOf, hmem.1]⟩
  · simp only [emit_trace, List.mem_cons, Event.login.injEq, reduceCtorEq, false_or] at hmem
    rcases hmem with ⟨h, -⟩ | h
    · exact ⟨by omega, by simp [pinOf, h]⟩
    · exact absurd h (loggedin_no_login e _ pin rc)

theorem prompt_loginArg (e : Env) (s : State) :
    LoginArg (fun pin => ∃ buf, fgets s.password 20 e.stdin = some buf ∧
      0 < strlen buf ∧ pin = pinOf buf) (prompt e s) := by
  unfold prompt
  simp only []
  split_ifs
  · exact loginArg_emit _ (by simp) (loginArg_of_no_login (by simp))
  · exact loginArg_emit _ (by simp) (loginArg_emit _ (by simp)
      (loginArg_of_no_login (by simp)))
  all_goals
    refine loginArg_emit _ (by simp) (loginArg_emit _ (by simp) (loginArg_emit _ (by simp) ?_))
    split
    · exact loginArg_emit _ (by simp) (loginArg_of_no_login (by simp))
    · rename_i buf hbuf
      refine loginArg_emit _ (by simp) (loginArg_emit _ (by simp) ?_)
      intro pin rc hmem
      exact ⟨buf, hbuf, doLogin_loginArg e _ pin rc hmem⟩

/-- Whenever `PKCS11_login` is called, `fgets` has returned a buffer holding a
non-empty C string, and the pin is that string with its last byte cut. -/
theorem main_loginArg (e : Env) :
    LoginArg (fun pin => ∃ buf, fgets e.passwordInit 20 e.stdin = some buf ∧
      0 < strlen buf ∧ pin = pinOf buf) (main e) := by
  refine main_ind _ e (fun code => loginArg_of_no_login (by simp)) (fun ev k hev hk => ?_)
    (loginArg_of_no_login (loggedin_no_login e _)) (prompt_loginArg e _)
  exact loginArg_emit ev (fun pin rc h => by simp [h, lateEvent, promptEvent] at hev) hk


/-! ## What `fgets` reads and what is left of it -/

theorem length_fgetsChars_le (n : Nat) : ∀ stream : List Nat,
    (fgetsChars n stream).length ≤ n := by
  induction n with
  | zero => intro stream; simp [fgetsChars]
  | succ n ih =>
    intro stream
    cases stream with
    | nil => simp [fgetsChars]
    | cons c cs =>
      unfold fgetsChars
      split_ifs
      · simp
      · simpa using ih cs

/-- A line shorter than the room in the buffer is read with its newline. -/
theorem fgetsChars_line (n : Nat) : ∀ line rest : List Nat,
    line.length < n → 10 ∉ line → fgetsChars n (line ++ 10 :: rest) = line ++ [10] := by
  induction n with
  | zero => intro line rest h; omega
  | succ n ih =>
    intro line rest hlen hnl
    cases line with
    | nil => simp [fgetsChars]
    | cons c cs =>
      have hc : c ≠ 10 := fun h => hnl (by simp [h])
      have hcs : 10 ∉ cs := fun h => hnl (by simp [h])
      simp only [List.cons_append, fgetsChars, hc, if_false, List.cons.injEq, true_and]
      exact ih cs rest (by simpa using hlen) hcs

/-- Without a newline in reach, `fgets` reads as much as fits. -/
theorem fgetsChars_no_newline (n : Nat) : ∀ typed rest : List Nat,
    10 ∉ typed → (n ≤ typed.length ∨ rest = []) →
    fgetsChars n (typed ++ rest) = typed.take n := by
  induction n with
  | zero => intro typed rest _ _; simp [fgetsChars]
  | succ n ih =>
    intro typed rest hnl hlen
    cases typed with
    | nil =>
      rcases hlen with h | h
      · simp at h
      · simp [h, fgetsChars]
    | cons c cs =>
      have hc : c ≠ 10 := fun h => hnl (by simp [h])
      have hcs : 10 ∉ cs := fun h => hnl (by simp [h])
      simp only [List.cons_append, fgetsChars, hc, if_false, List.take_succ_cons,
        List.cons.injEq, true_and]
      exact ih cs rest hcs (by
        rcases hlen with h | h
        · exact Or.inl (by simpa using h)
        · exact Or.inr h)

theorem cstr_append_zero (l t : List Nat) : cstr (l ++ 0 :: t) = cstr l := by
  induction l with
  | nil => simp [cstr]
  | cons a l ih =>
    simp only [cstr] at ih ⊢
    by_cases ha : a = 0
    · simp [ha]
    · simp [List.takeWhile_cons, ha, ih]

theorem cstr_of_no_zero (l : List Nat) (h : 0 ∉ l) : cstr l = l := by
  induction l with
  | nil => rfl
  | cons a l ih =>
    have ha : a ≠ 0 := fun h0 => h (by simp [h0])
    have hl : 0 ∉ l := fun h0 => h (by simp [h0])
    simp only [cstr] at ih ⊢
    simp [List.takeWhile_cons, ha, ih hl]

theorem length_cstr_le (l : List Nat) : (cstr l).length ≤ l.length := by
  exact (List.takeWhile_sublist (fun c => c != 0)).length_le

/-- Storing a zero byte over the last character of the C string cuts that
character off. -/
theorem cstr_set_last (l : List Nat) (h : 0 < strlen l) :
    cstr (l.set (strlen l - 1) 0) = (cstr l).dropLast := by
  induction l with
  | nil => simp [strlen] at h
  | cons a t ih =>
    by_cases ha : a = 0
    · simp [strlen, ha] at h
    · have hs : strlen (a :: t) = strlen t + 1 := by simp [strlen, List.takeWhile_cons, ha]
      have hc : cstr (a :: t) = a :: cstr t := by simp [cstr, List.takeWhile_cons, ha]
      rw [hs, hc]
      by_cases ht : strlen t = 0
      · have hnil : cstr t = [] := by
          have : (cstr t).length = 0 := ht
          exact List.length_eq_zero.mp this
        have hnil2 : List.takeWhile (fun c => c != 0) t = [] := hnil
        simp [ht, cstr, hnil2]
      · have hpos : 0 < strlen t := by omega
        have hne : cstr t ≠ [] := by
          intro hnil
          have : (cstr t).length = 0 := by simp [hnil]
          exact ht this
        have hidx : strlen t + 1 - 1 = (strlen t - 1) + 1 := by omega
        rw [hidx, List.set_cons_succ]
        have hc2 : cstr (a :: t.set (strlen t - 1) 0) = a :: cstr (t.set (strlen t - 1) 0) := by
          simp [cstr, List.takeWhile_cons, ha]
        rw [hc2, ih hpos]
        cases hct : cstr t with
        | nil => exact absurd hct hne
        | cons b u => simp [List.dropLast]

/-- The buffer `fgets` returns: the characters read, a zero byte, and the
old bytes behind. -/
theorem fgets_eq_some (pw : List Nat) (stream buf : List Nat)
    (h : fgets pw 20 stream = some buf) :
    fgetsChars 19 stream ≠ [] ∧
    buf = fgetsChars 19 stream ++ 0 :: pw.drop ((fgetsChars 19 stream).length + 1) := by
  unfold fgets at h
  simp only [Nat.reduceSub] at h
  split_ifs at h with hcs
  simp only [Option.some.injEq] at h
  exact ⟨hcs, by simp [← h]⟩


/-- C10: whenever `PKCS11_login` is called, its pin is the C string that
`fgets` read (at most 19 bytes of standard input, ending with the first
newline if one is in reach) with the last byte cut, so it has at most 18
bytes.  For a line of at most 18 bytes without zero byte, followed by a
newline, the pin is the line.  For an input with 19 or more bytes before any
newline, or an input that ends without newline, the pin differs from what was
typed; when the typed bytes hold no zero byte the pin is the bytes read
without the last of them. -/
theorem login_secret (e : Env) (pin : List Nat) (rc : Int)
    (h : Event.login pin rc ∈ (main e).trace) :
    pin = (cstr (fgetsChars 19 e.stdin)).dropLast ∧
    pin.length ≤ 18 ∧
    (∀ line rest, e.stdin = line ++ 10 :: rest → line.length ≤ 18 → 10 ∉ line →
      0 ∉ line → pin = line) ∧
    (∀ typed rest, e.stdin = typed ++ rest → 10 ∉ typed →
      (19 ≤ typed.length ∨ rest = []) →
      pin ≠ typed ∧ (0 ∉ typed → typed.take 19 ≠ [] ∧ pin = (typed.take 19).dropLast)) := by
  obtain ⟨buf, hbuf, hpos, hpin⟩ := main_loginArg e pin rc h
  obtain ⟨-, hb⟩ := fgets_eq_some _ _ _ hbuf
  have hc : cstr buf = cstr (fgetsChars 19 e.stdin) := by
    rw [hb, cstr_append_zero]
  have hp : pin = (cstr (fgetsChars 19 e.stdin)).dropLast := by
    rw [hpin, pinOf, cstr_set_last _ hpos, hc]
  have hpos2 : 0 < (cstr (fgetsChars 19 e.stdin)).length := by
    rw [← hc]
    exact hpos
  have hlen : (cstr (fgetsChars 19 e.stdin)).length ≤ 19 :=
    le_trans (length_cstr_le _) (length_fgetsChars_le 19 _)
  have hplen : pin.length = (cstr (fgetsChars 19 e.stdin)).length - 1 := by
    rw [hp, List.length_dropLast]
  refine ⟨hp, by omega, ?_, ?_⟩
  · intro line rest hin hl hnl hz
    have hread : fgetsChars 19 e.stdin = line ++ [10] := by
      rw [hin]
      exact fgetsChars_line 19 line rest (by omega) hnl
    have hz2 : 0 ∉ line ++ [10] := by simp [hz]
    rw [hp, hread, cstr_of_no_zero _ hz2, List.dropLast_concat]
  · intro typed rest hin hnl hlong
    have hread : fgetsChars 19 e.stdin = typed.take 19 := by
      rw [hin]
      exact fgetsChars_no_newline 19 typed rest hnl hlong
    rw [hread] at hpos2 hplen hp
    have h1 : (cstr (typed.take 19)).length ≤ (typed.take 19).length := length_cstr_le _
    have h2 : (typed.take 19).length ≤ typed.length := by simp
    refine ⟨fun heq => ?_, fun hz => ?_⟩
    · rw [heq] at hplen
      omega
    · have hz2 : 0 ∉ typed.take 19 := fun hm => hz (List.mem_of_mem_take hm)
      rw [cstr_of_no_zero _ hz2] at hp hpos2
      exact ⟨fun hnil => by simp [hnil] at hpos2, hp⟩

/-- Three inputs: `1234` with newline gives the pin `1234`, the line itself;
nineteen `A` with newline give eighteen `A`; `1234` ended by end of file gives
`123`. -/
theorem login_secret_witness :
    (Event.login [49, 50, 51, 52] 0 ∈ (main scenario).trace ∧
      [49, 50, 51, 52] = (cstr (fgetsChars 19 scenario.stdin)).dropLast ∧
      scenario.stdin = [49, 50, 51, 52] ++ 10 :: [] ∧
      ([49, 50, 51, 52] : List Nat) = [49, 50, 51, 52]) ∧
    (Event.login (List.replicate 18 65) (-1) ∈ (main longPin).trace ∧
      List.replicate 18 65 ≠ List.replicate 19 65) ∧
    (Event.login [49, 50, 51] (-1) ∈ (main noNewline).trace ∧
      [49, 50, 51] ≠ [49, 50, 51, 52]) :=
  ⟨⟨by decide, (login_secret scenario [49, 50, 51, 52] 0 (by decide)).1, rfl,
      (login_secret scenario [49, 50, 51, 52] 0 (by decide)).2.2.1
        [49, 50, 51, 52] [] rfl (by decide) (by decide) (by decide)⟩,
    ⟨by decide, ((login_secret longPin (List.replicate 18 65) (-1) (by decide)).2.2.2
      (List.replicate 19 65) [10] rfl (by decide) (Or.inl (by decide))).1⟩,
    ⟨by decide, ((login_secret noNewline [49, 50, 51] (-1) (by decide)).2.2.2
      [49, 50, 51, 52] [] rfl (by decide) (Or.inr rfl)).1⟩⟩

/-! ## The password buffer after the login -/

theorem succeed_password (e : Env) (s : State) : (succeed e s).password = s.password := by
  simp only [succeed, errRemove, emit_password]
  split_ifs <;> rfl

theorem loggedin_password (e : Env) (s : State) : (loggedin e s).password = s.password := by
  unfold loggedin
  simp only []
  split_ifs <;> simp [succeed_password]

theorem doLogin_password (e : Env) (s : State)
    (h : ∃ pin rc, Event.login pin rc ∈ (doLogin e s).trace) :
    (doLogin e s).password = wiped s.password := by
  obtain ⟨pin, rc, h⟩ := h
  unfold doLogin at h ⊢
  simp only [toNat_strlen_pred] at h ⊢
  split_ifs at h ⊢
  · simp at h
  · simp [wiped]
  · simp [wiped, loggedin_password]

theorem prompt_passwordAfterLogin (e : Env) (s : State) :
    PasswordAfterLogin wiped s.password e (prompt e s) := by
  intro h
  unfold prompt at h ⊢
  simp only [] at h ⊢
  split_ifs at h ⊢
  · simp at h
  · simp at h
  all_goals
    split at h
    · simp at h
    · rename_i buf hbuf
      refine ⟨buf, hbuf, ?_⟩
      simp only [hbuf, emit_password]
      refine doLogin_password e _ ?_
      obtain ⟨pin, rc, h⟩ := h
      exact ⟨pin, rc, by simpa using h⟩

theorem main_passwordAfterLogin (e : Env) :
    PasswordAfterLogin wiped e.passwordInit e (main e) := by
  refine main_ind _ e (fun code h => by simp at h) (fun ev k hev hk => ?_)
    (fun h => ?_) (prompt_passwordAfterLogin e _)
  · rintro ⟨pin, rc, h⟩
    simp only [emit_trace, List.mem_cons] at h
    rcases h with h | h
    · rw [← h] at hev
      simp [lateEvent, promptEvent] at hev
    · simpa using hk ⟨pin, rc, h⟩
  · obtain ⟨pin, rc, h⟩ := h
    exact absurd h (loggedin_no_login e _ pin rc)

theorem strlen_append_zero (l t : List Nat) (h : 0 ∉ l) : strlen (l ++ 0 :: t) = l.length := by
  have h1 := cstr_append_zero l t
  rw [cstr_of_no_zero l h] at h1
  simp only [strlen]
  simp only [cstr] at h1
  rw [h1]

/-- When the characters read hold no zero byte, the wipe clears all of them
and the terminating byte. -/
theorem wiped_of_no_zero (cs t : List Nat) (hne : cs ≠ []) (hz : 0 ∉ cs) :
    wiped (cs ++ 0 :: t) = List.replicate (cs.length + 1) 0 ++ t := by
  have hlen : strlen (cs ++ 0 :: t) = cs.length := strlen_append_zero cs t hz
  have hpos : 0 < cs.length := List.length_pos.mpr hne
  obtain ⟨init, last, rfl⟩ : ∃ init last, cs = init ++ [last] :=
    ⟨cs.dropLast, cs.getLast hne, (List.dropLast_append_getLast hne).symm⟩
  have hzi : 0 ∉ init := fun hm => hz (by simp [hm])
  have hset : (init ++ [last] ++ 0 :: t).set (strlen (init ++ [last] ++ 0 :: t) - 1) 0 =
      init ++ 0 :: 0 :: t := by
    rw [hlen]
    simp [List.set_append]
  unfold wiped
  rw [hset, strlen_append_zero init _ hzi]
  simp only [memset, List.length_append, List.length_cons, List.length_singleton]
  have hmin : min init.length (init.length + (t.length + 1 + 1)) = init.length := by omega
  rw [hmin, List.drop_left]
  simp [List.replicate_succ']

/-- For C8: on every input without a zero byte among the characters read,
the run that calls `PKCS11_login` ends with zero in every byte of `password`
that `fgets` wrote (the characters and the terminating byte). -/
theorem password_wiped_of_no_zero (e : Env) (pin : List Nat) (rc : Int)
    (h : Event.login pin rc ∈ (main e).trace) (hz : 0 ∉ fgetsChars 19 e.stdin) :
    (main e).password.take ((fgetsChars 19 e.stdin).length + 1) =
      List.replicate ((fgetsChars 19 e.stdin).length + 1) 0 := by
  obtain ⟨buf, hbuf, hpw⟩ := main_passwordAfterLogin e ⟨pin, rc, h⟩
  obtain ⟨hne, hb⟩ := fgets_eq_some _ _ _ hbuf
  rw [hpw, hb, wiped_of_no_zero _ _ hne hz]
  simp


/-! ## Every failure exit, and every end of file at the prompt -/

theorem loggedin_no_free_of_failure (e : Env) (s : State) (h : (loggedin e s).exit ≠ 0) :
    ∀ x, Event.free x ∉ (loggedin e s).trace := by
  intro x
  unfold loggedin at h ⊢
  simp only [] at h ⊢
  split_ifs at h ⊢
  · simp
  · simp
  · simp
  · simp
  · simp [succeed_exit] at h

theorem doLogin_no_free_of_failure (e : Env) (s : State) (h : (doLogin e s).exit ≠ 0) :
    ∀ x, Event.free x ∉ (doLogin e s).trace := by
  intro x
  unfold doLogin at h ⊢
  simp only [] at h ⊢
  split_ifs at h ⊢
  · simp
  · simp
  · simpa using loggedin_no_free_of_failure e _ (by simpa using h) x

theorem prompt_no_free_of_failure (e : Env) (s : State) (h : (prompt e s).exit ≠ 0) :
    ∀ x, Event.free x ∉ (prompt e s).trace := by
  intro x
  unfold prompt at h ⊢
  simp only [] at h ⊢
  split_ifs at h ⊢
  · simp
  · simp
  all_goals
    split at h
    · rename_i hbuf
      simp [hbuf]
    · rename_i buf hbuf
      simpa [hbuf] using doLogin_no_free_of_failure e _ (by simpa using h) x

/-- For C3: no run that returns a non-zero code calls `OPENSSL_free` or
`EVP_PKEY_free` at all, whatever it had allocated. -/
theorem nothing_freed_on_failure (e : Env) (h : (main e).exit ≠ 0) :
    ∀ x, Event.free x ∉ (main e).trace := by
  refine main_ind (fun r => r.exit ≠ 0 → ∀ x, Event.free x ∉ r.trace) e
    (fun code _ x => by simp) (fun ev k hev hk hx x => ?_)
    (loggedin_no_free_of_failure e _) (prompt_no_free_of_failure e _) h
  simp only [emit_trace, List.mem_cons, not_or]
  refine ⟨fun heq => ?_, hk (by simpa using hx) x⟩
  rw [← heq] at hev
  simp [lateEvent] at hev

theorem doLogin_no_fgets (e : Env) (s : State) (ok : Bool) :
    Event.fgets ok ∉ (doLogin e s).trace := by
  have hl : Event.fgets ok ∉ (loggedin e
      { password := memset (s.password.set (strlen s.password - 1) 0) 0
          (strlen (s.password.set (strlen s.password - 1) 0)), echo := s.echo }).trace :=
    fun hm => by simpa [promptEvent] using loggedin_no_promptEvent e _ _ hm
  unfold doLogin
  simp only [toNat_strlen_pred]
  split_ifs
  · simp
  · simp
  · simpa using hl

theorem prompt_echo_of_eof (e : Env) (s : State)
    (h : Event.fgets false ∈ (prompt e s).trace) : (prompt e s).echo = false := by
  unfold prompt at h ⊢
  simp only [] at h ⊢
  split_ifs at h ⊢
  · simp at h
  · simp at h
  all_goals
    split at h
    · rename_i hbuf
      simp [hbuf]
    · simp [doLogin_no_fgets] at h

/-- For C9: in every run in which `fgets` returns `NULL` at the prompt,
`main` returns with echo off. -/
theorem echo_off_after_eof (e : Env) (h : Event.fgets false ∈ (main e).trace) :
    (main e).echo = false := by
  refine main_ind (fun r => Event.fgets false ∈ r.trace → r.echo = false) e
    (fun code hm => by simp at hm) (fun ev k hev hk hm => ?_)
    (fun hm => ?_) (prompt_echo_of_eof e _) h
  · simp only [emit_trace, List.mem_cons] at hm
    rcases hm with heq | hm
    · rw [← heq] at hev
      simp [lateEvent, promptEvent] at hev
    · simpa using hk hm
  · exact absurd (loggedin_no_promptEvent e _ _ hm) (by simp [promptEvent])

end Libp11
